import Mathlib

/-!
# Verification of the daqnet Ethernet protocol engine

A shallow embedding, in Lean 4, of the daqnet gateware's Ethernet protocol
engine (`gateware/daqnet/ethernet/`): the RFC 1071 Internet checksum engine
(`_InternetChecksum` in `ip.py`), the Ethernet CRC32 engine (`crc.py`), the
MAC address filter (`mac_address_match.py`), the RMII frame receiver
(`rmii.py`), and the layered IP stack (`ip.py`): the Ethernet, ARP, IPv4,
ICMPv4 and UDP protocol layers built from the `_StackLayer` cursor
primitives, together with the top-level `IPStack` sequencer FSM.

Synchronous hardware (nMigen modules) is embedded as explicit step functions
on state structures, one step per clock cycle, with registers as `Nat`
fields truncated to their signal width.  The byte-per-state `_StackLayer`
FSMs are embedded as pure functions from the received byte stream to the
stream of (address, byte) writes they emit, in emission order, together
with their `send`/`tx_len` results and user-visible side effects.
-/

set_option maxRecDepth 100000

namespace Daqnet

/-! ## `_InternetChecksum` (ip.py)

The engine keeps a 17-bit `state` register.  Each enabled cycle it computes
`data_shift` (the 8-bit `data` input, shifted left 8 bits unless `lowbyte`
is asserted) and updates `state` to `state[:-1] + data_shift + state[-1]`,
i.e. the low 16 bits plus the shifted data plus the previous carry bit.
The `checksum` output is the bitwise complement of the low 16 bits. -/

/-- One enabled update step of the `_InternetChecksum` state register.
`state` is the 17-bit register (so `state / 65536` is its carry bit
`state[-1]`); the result is truncated to 17 bits as the register is. -/
def icStep (state : Nat) (d : Nat × Bool) : Nat :=
  (state % 65536 + (if d.2 then d.1 % 256 else d.1 % 256 * 256) + state / 65536) % 131072

/-- Feed a list of (data byte, lowbyte flag) pairs through the checksum
engine, in order, starting from state `s`. -/
def icFeed (s : Nat) (ds : List (Nat × Bool)) : Nat :=
  ds.foldl icStep s

/-- The `checksum` output: bitwise complement of the low 16 bits of the
state register (`self.checksum.eq(~state[:-1])`). -/
def icOut (state : Nat) : Nat :=
  65535 ^^^ state % 65536

/-- The 20-byte sample IPv4 header used as the reference vector in
`test_ipv4_checksum` (ip.py). -/
def sampleIPv4Header : List Nat :=
  [0x45, 0x00, 0x00, 0x73, 0x00, 0x00, 0x40, 0x00, 0x40, 0x11, 0x00,
   0x00, 0xc0, 0xa8, 0x00, 0x01, 0xc0, 0xa8, 0x00, 0xc7]

/-- A byte stream paired with its network-byte-order phase flags: byte `i`
carries `lowbyte = (i odd)`, as driven in `test_ipv4_checksum` by
`checksum.lowbyte.eq(idx & 1)`. -/
def withPhase (bs : List Nat) : List (Nat × Bool) :=
  (bs.enum).map (fun p => (p.2, p.1 % 2 = 1))

/-! Reference RFC 1071 arithmetic: the byte stream is taken as big-endian
16-bit words (a trailing odd byte is the high byte of a zero-padded word),
the words are summed with per-addition end-around carry, and the checksum
is the ones' complement of the sum. -/

/-- Big-endian 16-bit words of a byte stream, per RFC 1071. -/
def words16 : List Nat → List Nat
  | [] => []
  | [a] => [a % 256 * 256]
  | a :: b :: t => (a % 256 * 256 + b % 256) :: words16 t

/-- One ones' complement addition with end-around carry: add, then fold the
carry out of the top 16 bits back into the sum. -/
def rfcAdd (a w : Nat) : Nat :=
  (a + w) % 65536 + (a + w) / 65536

/-- RFC 1071 ones' complement sum of a list of 16-bit words. -/
def rfcSum (ws : List Nat) : Nat :=
  ws.foldl rfcAdd 0

/-- The RFC 1071 Internet checksum of a byte stream: ones' complement
(bitwise complement in 16 bits) of the end-around-carry sum of its
big-endian 16-bit words. -/
def rfc1071 (bs : List Nat) : Nat :=
  65535 ^^^ rfcSum (words16 bs)

/-- C9: feeding the 20-byte sample IPv4 header through the checksum engine
(with the phase flag of byte `i` set to `i odd`) yields 0xB861, which is
also the RFC 1071 ones'-complement checksum of the same stream taken as
big-endian 16-bit words. -/
theorem internet_checksum_sample_vector :
    icOut (icFeed 0 (withPhase sampleIPv4Header)) = 0xB861 ∧
    rfc1071 sampleIPv4Header = 0xB861 := by
  constructor <;> decide

/-! ## `CRC32` (crc.py)

The CRC engine keeps a 32-bit `crc` register and a 256-entry lookup table
built by `make_crc32_table()`.  A `RESET` state loads 0xFFFFFFFF; each
accepted data byte then updates the register in the `BUSY` state by
`crc.eq(table_port.data ^ (crc >> 8))`, the table being addressed by the
low 8 bits of `crc ^ data`.  Outputs: `crc_out = crc ^ 0xFFFFFFFF` and
`crc_match = (crc == 0xDEBB20E3)`. -/

/-- Reverse the low `w` bits of `x` (the binary-string reversal
`int(f"{i:08b}"[::-1], 2)` used in `make_crc32_table`). -/
def bitRev (w x : Nat) : Nat :=
  (List.range w).foldl (fun acc i => acc * 2 + x / 2 ^ i % 2) 0

/-- Entry `i` of the CRC table, per `make_crc32_table()`: bit-reverse `i`
in 8 bits, place it in the top byte, run 8 iterations of the (non-reflected)
polynomial 0x04C11DB7 step, and bit-reverse the result in 32 bits. -/
def crcTableEntry (i : Nat) : Nat :=
  bitRev 32 ((List.range 8).foldl
    (fun r _ => if r / 2 ^ 31 % 2 = 1 then r * 2 % 2 ^ 32 ^^^ 0x04C11DB7 else r * 2 % 2 ^ 32)
    (bitRev 8 i * 2 ^ 24))

/-- The 256-entry lookup table of `make_crc32_table()`. -/
def crcTable : List Nat :=
  (List.range 256).map crcTableEntry

/-- One data byte's update of the `crc` register (the `BUSY` state):
table entry addressed by the low byte of `crc ^ data`, xored with
`crc >> 8`. -/
def crcStep (crc data : Nat) : Nat :=
  crcTable.getD ((crc ^^^ data % 256) % 256) 0 ^^^ crc >>> 8

/-- Feed a byte list through the CRC engine from state `crc`. -/
def crcFeed (crc : Nat) (bs : List Nat) : Nat :=
  bs.foldl crcStep crc

/-- The register value loaded by the `RESET` state. -/
def crcInit : Nat := 0xFFFFFFFF

/-- The `crc_out` output: `crc ^ 0xFFFFFFFF`. -/
def crcOut (crc : Nat) : Nat := crc ^^^ 0xFFFFFFFF

/-- The `crc_match` output: `crc == 0xDEBB20E3`. -/
def crcMatch (crc : Nat) : Bool := crc == 0xDEBB20E3

/-- The 4 FCS trailer bytes as appended by `RMIITx` (states `FCS1`..`FCS4`
emit `crc_out[0:8]`, `crc_out[8:16]`, `crc_out[16:24]`, `crc_out[24:32]`,
i.e. the ones' complement of the running state, least-significant byte
first). -/
def fcsBytes (crc : Nat) : List Nat :=
  [crcOut crc % 256, (crcOut crc >>> 8) % 256,
   (crcOut crc >>> 16) % 256, (crcOut crc >>> 24) % 256]

/-- Sanity vector from `test_crc32` / `test_crc32_py`: ASCII "123456789"
yields `crc_out = 0xCBF43926`. -/
example : crcOut (crcFeed crcInit [49, 50, 51, 52, 53, 54, 55, 56, 57]) = 0xCBF43926 := by
  decide

/-- C5 counterexample: the residual-match output is decided by the constant
0xDEBB20E3, not 0xC704DD7B: the state 0xDEBB20E3 matches although it does
not equal 0xC704DD7B (and the state 0xC704DD7B itself does not match). -/
theorem crcMatch_not_C704DD7B :
    crcMatch 0xDEBB20E3 = true ∧ (0xDEBB20E3 : Nat) ≠ 0xC704DD7B ∧
    crcMatch 0xC704DD7B = false := by
  decide

/-- C5 (amended): the residual-match output is true exactly when the
running 32-bit CRC state equals 0xDEBB20E3, which is the 32-bit
bit-reversal of the conventional FCS residue constant 0xC704DD7B. -/
theorem crcMatch_iff (crc : Nat) :
    crcMatch crc = true ↔ crc = bitRev 32 0xC704DD7B := by
  have h : bitRev 32 0xC704DD7B = 0xDEBB20E3 := by decide
  rw [h]
  simp [crcMatch]

/-! ### C7: the CRC residual check accepts a correctly-appended FCS trailer

Key step lemma: if the running state has the form `u ^^^ (c >>> k)` and the
next fed byte is `(c >>> k) % 256 ^^^ 255` (byte `k/8` of the complement of
`c`), then the `c`-dependence telescopes: the table index collapses to
`u % 256 ^^^ 255` and the new state is again of the same form with the
constant part advanced and the `c` part shifted by a further 8 bits. -/

lemma xor_mod_two_pow (a b n : Nat) :
    (a ^^^ b) % 2 ^ n = a % 2 ^ n ^^^ b % 2 ^ n := by
  apply Nat.eq_of_testBit_eq
  intro i
  simp only [Nat.testBit_mod_two_pow, Nat.testBit_xor]
  by_cases h : i < n <;> simp [h]

lemma xor_mod_256 (a b : Nat) : (a ^^^ b) % 256 = a % 256 ^^^ b % 256 := by
  have := xor_mod_two_pow a b 8
  norm_num at this
  exact this

lemma xor_shiftRight (a b n : Nat) :
    (a ^^^ b) >>> n = a >>> n ^^^ b >>> n := by
  apply Nat.eq_of_testBit_eq
  intro i
  simp [Nat.testBit_shiftRight, Nat.testBit_xor]

lemma crcStep_fcs (u v : Nat) :
    crcStep (u ^^^ v) (v % 256 ^^^ 255)
      = (crcTable.getD (u % 256 ^^^ 255) 0 ^^^ u >>> 8) ^^^ v >>> 8 := by
  unfold crcStep
  have hb : (v % 256 ^^^ 255) % 256 = v % 256 ^^^ 255 := by
    apply Nat.mod_eq_of_lt
    have h : v % 256 ^^^ 255 < 2 ^ 8 :=
      Nat.xor_lt_two_pow (by omega : v % 256 < 2 ^ 8) (by norm_num)
    simpa using h
  have hmm : v % 256 % 256 = v % 256 := Nat.mod_mod_of_dvd v dvd_rfl
  have h255 : (255 : Nat) % 256 = 255 := by norm_num
  have hidx : ((u ^^^ v) ^^^ (v % 256 ^^^ 255)) % 256 = u % 256 ^^^ 255 := by
    rw [xor_mod_256, xor_mod_256, xor_mod_256, hmm, h255, Nat.xor_assoc,
      Nat.xor_cancel_left]
  rw [hb, hidx, xor_shiftRight, ← Nat.xor_assoc]

lemma crcStep_fcs0 (v : Nat) :
    crcStep v (v % 256 ^^^ 255) = crcTable.getD 255 0 ^^^ v >>> 8 := by
  have h := crcStep_fcs 0 v
  simpa using h

lemma crcTable_getD_lt (i : Nat) : crcTable.getD i 0 < 2 ^ 32 := by
  by_cases h : i < 256
  · have hall : ∀ j < 256, crcTable.getD j 0 < 2 ^ 32 := by decide
    exact hall i h
  · have hlen : crcTable.length = 256 := by simp [crcTable]
    rw [List.getD_eq_default _ _ (by omega)]
    norm_num

lemma crcStep_lt (crc data : Nat) (h : crc < 2 ^ 32) : crcStep crc data < 2 ^ 32 := by
  unfold crcStep
  refine Nat.xor_lt_two_pow (crcTable_getD_lt _) ?_
  calc crc >>> 8 = crc / 2 ^ 8 := Nat.shiftRight_eq_div_pow crc 8
    _ ≤ crc := Nat.div_le_self crc _
    _ < 2 ^ 32 := h

lemma crcFeed_lt (bs : List Nat) (crc : Nat) (h : crc < 2 ^ 32) :
    crcFeed crc bs < 2 ^ 32 := by
  induction bs generalizing crc with
  | nil => exact h
  | cons b t ih => exact ih _ (crcStep_lt _ _ h)

/-- For any 32-bit state `c`, feeding the 4 bytes of `crc_out` (ones'
complement of `c`, least-significant byte first) drives the register to
the residual constant 0xDEBB20E3. -/
lemma crcFeed_fcs (c : Nat) (hc : c < 2 ^ 32) :
    crcFeed c (fcsBytes c) = 0xDEBB20E3 := by
  have hb0 : crcOut c % 256 = c % 256 ^^^ 255 := by
    rw [crcOut, xor_mod_256]
  have hb1 : (crcOut c >>> 8) % 256 = c >>> 8 % 256 ^^^ 255 := by
    have hM : (4294967295 : Nat) >>> 8 % 256 = 255 := by decide
    rw [crcOut, xor_shiftRight, xor_mod_256, hM]
  have hb2 : (crcOut c >>> 16) % 256 = c >>> 16 % 256 ^^^ 255 := by
    have hM : (4294967295 : Nat) >>> 16 % 256 = 255 := by decide
    rw [crcOut, xor_shiftRight, xor_mod_256, hM]
  have hb3 : (crcOut c >>> 24) % 256 = c >>> 24 % 256 ^^^ 255 := by
    have hM : (4294967295 : Nat) >>> 24 % 256 = 255 := by decide
    rw [crcOut, xor_shiftRight, xor_mod_256, hM]
  have hs16 : c >>> 8 >>> 8 = c >>> 16 := by
    rw [← Nat.shiftRight_add]
  have hs24 : c >>> 16 >>> 8 = c >>> 24 := by
    rw [← Nat.shiftRight_add]
  have hs32 : c >>> 24 >>> 8 = c >>> 32 := by
    rw [← Nat.shiftRight_add]
  have h32 : c >>> 32 = 0 := by
    rw [Nat.shiftRight_eq_div_pow]
    exact Nat.div_eq_of_lt hc
  show crcStep (crcStep (crcStep (crcStep c (crcOut c % 256))
      ((crcOut c >>> 8) % 256)) ((crcOut c >>> 16) % 256)) ((crcOut c >>> 24) % 256) = _
  rw [hb0, hb1, hb2, hb3, crcStep_fcs0, crcStep_fcs, hs16, crcStep_fcs, hs24,
    crcStep_fcs, hs32, h32, Nat.xor_zero]
  decide

/-- C7: starting from reset, after feeding any byte sequence, feeding the
4 bytes of the engine's own `crc_out` output (ones' complement of the
running state, least-significant byte first, exactly as `RMIITx` appends
them) makes the residual-match output report a match. -/
theorem crc_selfcheck_matches (bs : List Nat) :
    crcMatch (crcFeed (crcFeed crcInit bs) (fcsBytes (crcFeed crcInit bs))) = true := by
  rw [crcFeed_fcs _ (crcFeed_lt bs crcInit (by norm_num [crcInit]))]
  decide

/-! ## `MACAddressMatch` (mac_address_match.py)

Six 8-bit `mac` registers are loaded one per incoming byte by an FSM
(`RESET` → `BYTE0` → … → `BYTE5` → `DONE`); a registered `mac_match` output
is recomputed on every clock as the conjunction over the six registers of
"equals the configured byte or equals 0xFF".  The `RESET` state zeroes all
six registers; the `DONE` state leaves them unchanged until reset. -/

inductive MacFsm
  | RESET
  | BYTE (i : Nat)
  | DONE
deriving DecidableEq

structure MacState where
  fsm : MacFsm
  mac : List Nat
  matchReg : Bool
deriving DecidableEq

/-- The combinational match expression registered into `mac_match` each
cycle: `reduce(and _, [(mac[idx] == mac_addr[idx]) | (mac[idx] == 0xFF)
for idx in range(6)])`. -/
def macMatchExpr (macAddr mac : List Nat) : Bool :=
  (List.range 6).all fun idx =>
    (mac.getD idx 0 == macAddr.getD idx 0) || (mac.getD idx 0 == 0xFF)

/-- One clock step of `MACAddressMatch` with inputs `reset`, `data`
(8-bit) and `data_valid`.  The `mac_match` register is always reloaded
from the current `mac` registers; the FSM latches `data` into register
`i` while in state `BYTEi` and advances on `data_valid`. -/
def macStep (macAddr : List Nat) (s : MacState) (reset : Bool)
    (data : Nat) (dataValid : Bool) : MacState :=
  let m := macMatchExpr macAddr s.mac
  match s.fsm with
  | .RESET => ⟨if reset then .RESET else .BYTE 0, List.replicate 6 0, m⟩
  | .BYTE i =>
      ⟨if reset then .RESET
        else if dataValid then (if i < 5 then .BYTE (i + 1) else .DONE) else .BYTE i,
       s.mac.set i (data % 256), m⟩
  | .DONE => ⟨if reset then .RESET else .DONE, s.mac, m⟩

/-- Feed a list of bytes, one `data_valid` cycle per byte, reset low. -/
def macFeed (macAddr : List Nat) (s : MacState) (bs : List Nat) : MacState :=
  bs.foldl (fun st b => macStep macAddr st false b true) s

lemma macDone_run (macAddr mac : List Nat) (m : Bool) (post : List (Nat × Bool)) :
    post.foldl (fun st p => macStep macAddr st false p.1 p.2) ⟨.DONE, mac, m⟩
      = ⟨.DONE, mac, if post.isEmpty then m else macMatchExpr macAddr mac⟩ := by
  induction post generalizing m with
  | nil => simp
  | cons p t ih =>
    rw [List.foldl_cons]
    have hstep : macStep macAddr ⟨.DONE, mac, m⟩ false p.1 p.2
        = ⟨.DONE, mac, macMatchExpr macAddr mac⟩ := by
      simp [macStep]
    rw [hstep, ih]
    simp [ite_self]

/-- C6 (amended): starting from any reset state, after the six
destination-address bytes are fed the match output is (from the next cycle
on, and stably under any further non-reset inputs) exactly the conjunction
over the six bytes of "equals the configured byte or equals 0xFF". -/
theorem mac_filter_latches
    (macAddr bs : List Nat) (h6 : bs.length = 6) (hb : ∀ b ∈ bs, b < 256)
    (sR : MacState) (hR : sR.fsm = MacFsm.RESET)
    (d0 : Nat) (v0 : Bool) (post : List (Nat × Bool)) :
    ((post.foldl (fun st p => macStep macAddr st false p.1 p.2)
        (macStep macAddr (macFeed macAddr (macStep macAddr sR false d0 v0) bs)
          false 0 false)).matchReg
      = macMatchExpr macAddr bs)
    ∧ (macMatchExpr macAddr bs = true ↔
        ∀ i < 6, bs.getD i 0 = macAddr.getD i 0 ∨ bs.getD i 0 = 0xFF) := by
  obtain ⟨f, macR, mR⟩ := sR
  simp only at hR
  subst hR
  obtain ⟨b0, bs⟩ : ∃ b0 t, bs = b0 :: t := by
    cases bs with
    | nil => simp at h6
    | cons a t => exact ⟨a, t, rfl⟩
  obtain ⟨t, rfl⟩ := bs
  obtain ⟨b1, t, rfl⟩ : ∃ b1 t', t = b1 :: t' := by
    cases t with
    | nil => simp at h6
    | cons a t => exact ⟨a, t, rfl⟩
  obtain ⟨b2, t, rfl⟩ : ∃ b2 t', t = b2 :: t' := by
    cases t with
    | nil => simp at h6
    | cons a t => exact ⟨a, t, rfl⟩
  obtain ⟨b3, t, rfl⟩ : ∃ b3 t', t = b3 :: t' := by
    cases t with
    | nil => simp at h6
    | cons a t => exact ⟨a, t, rfl⟩
  obtain ⟨b4, t, rfl⟩ : ∃ b4 t', t = b4 :: t' := by
    cases t with
    | nil => simp at h6
    | cons a t => exact ⟨a, t, rfl⟩
  obtain ⟨b5, t, rfl⟩ : ∃ b5 t', t = b5 :: t' := by
    cases t with
    | nil => simp at h6
    | cons a t => exact ⟨a, t, rfl⟩
  obtain rfl : t = [] := by
    cases t with
    | nil => rfl
    | cons a t => simp at h6
  have m0 := hb b0 (by simp)
  have m1 := hb b1 (by simp)
  have m2 := hb b2 (by simp)
  have m3 := hb b3 (by simp)
  have m4 := hb b4 (by simp)
  have m5 := hb b5 (by simp)
  constructor
  · have hfeed : macStep macAddr
        (macFeed macAddr (macStep macAddr ⟨MacFsm.RESET, macR, mR⟩ false d0 v0)
          [b0, b1, b2, b3, b4, b5]) false 0 false
        = ⟨.DONE, [b0 % 256, b1 % 256, b2 % 256, b3 % 256, b4 % 256, b5 % 256],
            macMatchExpr macAddr [b0 % 256, b1 % 256, b2 % 256, b3 % 256, b4 % 256, b5 % 256]⟩ := by
      simp [macFeed, macStep, List.replicate]
    rw [hfeed, macDone_run]
    simp only [ite_self]
    rw [Nat.mod_eq_of_lt m0, Nat.mod_eq_of_lt m1, Nat.mod_eq_of_lt m2,
      Nat.mod_eq_of_lt m3, Nat.mod_eq_of_lt m4, Nat.mod_eq_of_lt m5]
  · simp only [macMatchExpr, List.all_eq_true, List.mem_range]
    constructor
    · intro h i hi
      have := h i hi
      simpa [Bool.or_eq_true, beq_iff_eq] using this
    · intro h i hi
      simpa [Bool.or_eq_true, beq_iff_eq] using h i hi

/-- Witness for `mac_filter_latches` at the concrete inputs of
`test_mac_address_match`. -/
theorem mac_filter_latches_witness :
    ((([] : List (Nat × Bool)).foldl
        (fun st p => macStep [0x01, 0x23, 0x45, 0x67, 0x89, 0xAB] st false p.1 p.2)
        (macStep [0x01, 0x23, 0x45, 0x67, 0x89, 0xAB]
          (macFeed [0x01, 0x23, 0x45, 0x67, 0x89, 0xAB]
            (macStep [0x01, 0x23, 0x45, 0x67, 0x89, 0xAB] ⟨MacFsm.RESET, [0, 0, 0, 0, 0, 0], false⟩ false 0 false)
            [0x01, 0x23, 0x45, 0x67, 0x89, 0xAB])
          false 0 false)).matchReg
      = macMatchExpr [0x01, 0x23, 0x45, 0x67, 0x89, 0xAB] [0x01, 0x23, 0x45, 0x67, 0x89, 0xAB])
    ∧ (macMatchExpr [0x01, 0x23, 0x45, 0x67, 0x89, 0xAB] [0x01, 0x23, 0x45, 0x67, 0x89, 0xAB] = true ↔
        ∀ i < 6, [(0x01 : Nat), 0x23, 0x45, 0x67, 0x89, 0xAB].getD i 0
            = [(0x01 : Nat), 0x23, 0x45, 0x67, 0x89, 0xAB].getD i 0
          ∨ [(0x01 : Nat), 0x23, 0x45, 0x67, 0x89, 0xAB].getD i 0 = 0xFF) :=
  mac_filter_latches [0x01, 0x23, 0x45, 0x67, 0x89, 0xAB]
    [0x01, 0x23, 0x45, 0x67, 0x89, 0xAB] (by decide) (by decide)
    ⟨MacFsm.RESET, [0, 0, 0, 0, 0, 0], false⟩ rfl 0 false []

/-- C6 counterexample: a destination address mixing one broadcast byte
0xFF with the remaining five configured bytes is neither the configured
address nor the all-0xFF broadcast address, yet the filter latches a
match for it. -/
theorem mac_filter_partial_mix_matches :
    (macStep [0x01, 0x23, 0x45, 0x67, 0x89, 0xAB]
      (macFeed [0x01, 0x23, 0x45, 0x67, 0x89, 0xAB]
        (macStep [0x01, 0x23, 0x45, 0x67, 0x89, 0xAB] ⟨MacFsm.RESET, [0, 0, 0, 0, 0, 0], false⟩ false 0 false)
        [0xFF, 0x23, 0x45, 0x67, 0x89, 0xAB])
      false 0 false).matchReg = true
    ∧ [(0xFF : Nat), 0x23, 0x45, 0x67, 0x89, 0xAB] ≠ [0x01, 0x23, 0x45, 0x67, 0x89, 0xAB]
    ∧ [(0xFF : Nat), 0x23, 0x45, 0x67, 0x89, 0xAB] ≠ List.replicate 6 0xFF := by
  decide

/-! ## `CRC32` as a clocked module (crc.py FSM)

For composition into the frame receiver we also embed the CRC engine's
clocked FSM: `RESET` (loads 0xFFFFFFFF) → `IDLE` → `BUSY` (applies
`crcStep`) → `IDLE`.  In `BUSY` the unconditional `m.next = "IDLE"`
textually follows the `If(reset)` branch and therefore overrides it
(last assignment wins), so `BUSY` always returns to `IDLE`. -/

inductive CrcFsm
  | RESET
  | IDLE
  | BUSY
deriving DecidableEq

structure CrcState where
  fsm : CrcFsm
  crc : Nat
deriving DecidableEq

/-- Power-on state: registers zero, FSM in its first declared state. -/
def crc32Init : CrcState := ⟨.RESET, 0⟩

/-- One clock step of the `CRC32` module with inputs `reset`, `data`,
`data_valid`. -/
def crc32Step (s : CrcState) (reset : Bool) (data : Nat) (dataValid : Bool) : CrcState :=
  match s.fsm with
  | .RESET => ⟨.IDLE, 0xFFFFFFFF⟩
  | .IDLE => if reset then ⟨.RESET, s.crc⟩ else if dataValid then ⟨.BUSY, s.crc⟩ else s
  | .BUSY => ⟨.IDLE, crcStep s.crc data⟩

/-! ## `RMIIRx` (rmii.py)

The frame receiver's FSM (`IDLE` → `DATA` → `EOF` → `IDLE`) composed with
its `CRC32` and `MACAddressMatch` submodules.  The submodules' `data` and
`data_valid` inputs are wired to the `RMIIRxByte` outputs and their `reset`
inputs to `fsm.ongoing("IDLE")`; the packet-memory write port is driven
combinationally with `addr = adr`, `data = rxbyte.data` and
`en = rxbyte.data_valid` in every state. -/

/-- Power-on state of the MAC address matcher. -/
def macInit : MacState := ⟨.RESET, List.replicate 6 0, false⟩

inductive RxFsm
  | IDLE
  | DATA
  | EOF
deriving DecidableEq

structure RxState where
  fsm : RxFsm
  adr : Nat
  rxOffset : Nat
  rxLen : Nat
  rxValid : Bool
  crc : CrcState
  mac : MacState
deriving DecidableEq

/-- The `RMIIRxByte` outputs seen by `RMIIRx` on one clock: recovered data
valid `dv`, byte `data`, byte strobe `data_valid`. -/
structure RxIn where
  dv : Bool
  data : Nat
  dataValid : Bool
deriving DecidableEq

/-- Power-on state of `RMIIRx` with its submodules. -/
def rmiiRxInit : RxState := ⟨.IDLE, 0, 0, 0, false, crc32Init, macInit⟩

/-- One clock step of `RMIIRx`. -/
def rmiiRxStep (macAddr : List Nat) (s : RxState) (i : RxIn) : RxState :=
  let rst := decide (s.fsm = RxFsm.IDLE)
  let crc' := crc32Step s.crc rst (i.data % 256) i.dataValid
  let mac' := macStep macAddr s.mac rst (i.data % 256) i.dataValid
  match s.fsm with
  | .IDLE =>
      { s with
        rxLen := 0
        rxValid := false
        rxOffset := if i.dv then s.adr else s.rxOffset
        fsm := if i.dv then .DATA else .IDLE
        crc := crc'
        mac := mac' }
  | .DATA =>
      if i.dataValid then
        { s with
          adr := (s.adr + 1) % 2048
          rxLen := (s.rxLen + 1) % 2048
          crc := crc'
          mac := mac' }
      else if !i.dv then
        { s with
          fsm := .EOF
          crc := crc'
          mac := mac' }
      else
        { s with
          crc := crc'
          mac := mac' }
  | .EOF =>
      { s with
        fsm := .IDLE
        rxValid := if crcMatch s.crc.crc && s.mac.matchReg then true else s.rxValid
        crc := crc'
        mac := mac' }

/-- Combinational packet-memory write enable of `RMIIRx`:
`write_port.en.eq(rxbyte.data_valid)`, driven identically in every FSM
state. -/
def rmiiRxWriteEn (_s : RxState) (i : RxIn) : Bool := i.dataValid

/-- Run `RMIIRx` over a list of per-clock inputs. -/
def rmiiRxRun (macAddr : List Nat) (s : RxState) (ins : List RxIn) : RxState :=
  ins.foldl (rmiiRxStep macAddr) s

lemma rxValid_step (macAddr : List Nat) (s : RxState) (i : RxIn)
    (h : (rmiiRxStep macAddr s i).rxValid = true) :
    (s.fsm = RxFsm.EOF ∧ crcMatch s.crc.crc = true ∧ s.mac.matchReg = true)
      ∨ s.rxValid = true := by
  obtain ⟨f, adr, ro, rl, rv, crc, mac⟩ := s
  cases f with
  | IDLE => simp [rmiiRxStep] at h
  | DATA =>
    right
    by_cases h1 : i.dataValid = true <;> by_cases h2 : i.dv = true <;>
      simp [rmiiRxStep, h1, h2] at h <;> exact h
  | EOF =>
    simp only [rmiiRxStep] at h
    by_cases hm : (crcMatch crc.crc && mac.matchReg) = true
    · have hm' := hm
      rw [Bool.and_eq_true] at hm'
      exact Or.inl ⟨rfl, hm'.1, hm'.2⟩
    · right
      simpa [hm] using h

lemma rxValid_false_of_no_match (macAddr : List Nat) (s : RxState)
    (hs : s.rxValid = false) (ins : List RxIn)
    (h : ∀ k < ins.length,
      ¬ ((rmiiRxRun macAddr s (ins.take k)).fsm = RxFsm.EOF
        ∧ crcMatch (rmiiRxRun macAddr s (ins.take k)).crc.crc = true
        ∧ (rmiiRxRun macAddr s (ins.take k)).mac.matchReg = true)) :
    (rmiiRxRun macAddr s ins).rxValid = false := by
  induction ins generalizing s with
  | nil => exact hs
  | cons i t ih =>
    have hstep : (rmiiRxStep macAddr s i).rxValid = false := by
      by_contra hc
      have hc' : (rmiiRxStep macAddr s i).rxValid = true := by
        cases hv : (rmiiRxStep macAddr s i).rxValid
        · exact absurd hv hc
        · rfl
      rcases rxValid_step macAddr s i hc' with hm | hold
      · exact h 0 (by simp) (by simpa [rmiiRxRun] using hm)
      · rw [hs] at hold; cases hold
    have hrun : rmiiRxRun macAddr s (i :: t) = rmiiRxRun macAddr (rmiiRxStep macAddr s i) t := by
      simp [rmiiRxRun]
    rw [hrun]
    refine ih (rmiiRxStep macAddr s i) hstep ?_
    intro k hk
    have := h (k + 1) (by simpa using Nat.succ_lt_succ hk)
    simpa [rmiiRxRun, List.take_succ_cons] using this

/-- C2 (amended): if at every cycle where the receiver's FSM is at
end-of-frame the CRC residual or the address filter fails, then `rx_valid`
is never asserted (the frame is never exposed downstream, so no reply can
be produced); however the receiver's packet-memory write enable equals the
incoming byte strobe in every state, so frame bytes are written to packet
memory regardless of the destination address. -/
theorem frame_receiver_gating (macAddr : List Nat) (ins : List RxIn)
    (h : ∀ k < ins.length,
      ¬ ((rmiiRxRun macAddr rmiiRxInit (ins.take k)).fsm = RxFsm.EOF
        ∧ crcMatch (rmiiRxRun macAddr rmiiRxInit (ins.take k)).crc.crc = true
        ∧ (rmiiRxRun macAddr rmiiRxInit (ins.take k)).mac.matchReg = true)) :
    (rmiiRxRun macAddr rmiiRxInit ins).rxValid = false
    ∧ ∀ (s : RxState) (i : RxIn), rmiiRxWriteEn s i = i.dataValid := by
  refine ⟨rxValid_false_of_no_match macAddr rmiiRxInit rfl ins h, fun s i => rfl⟩

/-- A concrete frame trace whose destination address is all-zeroes: enter
`DATA` on carrier, stream six destination bytes (one `data_valid` pulse
and one gap cycle each), drop carrier, and let the FSM pass through `EOF`
back to `IDLE`. -/
def mismatchTrace : List RxIn :=
  [⟨true, 0, false⟩] ++
  (List.replicate 6 0).foldr (fun b acc => ⟨true, b, true⟩ :: ⟨true, b, false⟩ :: acc) [] ++
  [⟨false, 0, false⟩, ⟨false, 0, false⟩]

/-- Witness for `frame_receiver_gating` on the concrete all-zero
destination trace (for the MAC address 01:23:45:67:89:AB). -/
theorem frame_receiver_gating_witness :
    (rmiiRxRun [0x01, 0x23, 0x45, 0x67, 0x89, 0xAB] rmiiRxInit mismatchTrace).rxValid = false
    ∧ ∀ (s : RxState) (i : RxIn), rmiiRxWriteEn s i = i.dataValid :=
  frame_receiver_gating [0x01, 0x23, 0x45, 0x67, 0x89, 0xAB] mismatchTrace (by decide)

/-- C2 counterexample: during the all-zero-destination frame of
`mismatchTrace` (a destination matching neither the configured address
01:23:45:67:89:AB nor broadcast, as witnessed by the address filter
latching a mismatch), the Frame Receiver does assert a packet-memory write
for a frame byte, refuting "no observable write activity at all". -/
theorem frame_receiver_writes_on_mismatch :
    rmiiRxWriteEn
        (rmiiRxRun [0x01, 0x23, 0x45, 0x67, 0x89, 0xAB] rmiiRxInit (mismatchTrace.take 1))
        (mismatchTrace.getD 1 ⟨false, 0, false⟩) = true
    ∧ (rmiiRxRun [0x01, 0x23, 0x45, 0x67, 0x89, 0xAB] rmiiRxInit mismatchTrace).mac.matchReg = false
    ∧ (List.replicate 6 (0 : Nat)) ≠ [0x01, 0x23, 0x45, 0x67, 0x89, 0xAB]
    ∧ (List.replicate 6 (0 : Nat)) ≠ List.replicate 6 0xFF
    ∧ (rmiiRxRun [0x01, 0x23, 0x45, 0x67, 0x89, 0xAB] rmiiRxInit mismatchTrace).rxValid = false := by
  decide

/-! ## `IPStack` top-level FSM (ip.py `IPStack.elaborate`)

Arbitrates between replying to a received frame (`PROCESS_RX`, running the
Ethernet layer) and sending a new user packet (`SEND_USER`, running the
UDP-transmit layer).  The submodule handshake outputs (`done`, `send`,
`tx_len`) are treated as inputs of this step function. -/

inductive StackFsm
  | IDLE
  | PROCESS_RX
  | SEND_USER
deriving DecidableEq

structure IPStackState where
  fsm : StackFsm
  rxAck : Bool
  rxAddr : Nat
  txOffset : Nat
  ethRun : Bool
  udpTxRun : Bool
deriving DecidableEq

structure IPStackIn where
  userTx : Bool
  rxValid : Bool
  rxOffset : Nat
  ethDone : Bool
  ethSend : Bool
  ethTxLen : Nat
  udpTxDone : Bool
  udpTxSend : Bool
  udpTxTxLen : Nat
deriving DecidableEq

/-- One clock step of the `IPStack` FSM. -/
def ipStackStep (s : IPStackState) (i : IPStackIn) : IPStackState :=
  match s.fsm with
  | .IDLE =>
      { s with
        rxAddr := i.rxOffset % 2048
        ethRun := false
        udpTxRun := false
        fsm := if i.userTx then .SEND_USER
          else if i.rxValid then .PROCESS_RX else .IDLE
        rxAck := if i.userTx then s.rxAck else if i.rxValid then true else s.rxAck }
  | .PROCESS_RX =>
      { s with
        rxAddr := (s.rxAddr + 1) % 2048
        ethRun := !i.ethDone
        rxAck := false
        fsm := if i.ethDone then .IDLE else .PROCESS_RX
        txOffset := if i.ethDone && i.ethSend
          then (s.txOffset + i.ethTxLen) % 2048 else s.txOffset }
  | .SEND_USER =>
      { s with
        udpTxRun := !i.udpTxDone
        fsm := if i.udpTxDone then .IDLE else .SEND_USER
        txOffset := if i.udpTxDone && i.udpTxSend
          then (s.txOffset + i.udpTxTxLen) % 2048 else s.txOffset }

/-- Combinational `tx_start` output: driven from `eth.send` only during
`PROCESS_RX` and from `udp_tx.send` only during `SEND_USER`. -/
def ipStackTxStart (s : IPStackState) (i : IPStackIn) : Bool :=
  match s.fsm with
  | .IDLE => false
  | .PROCESS_RX => i.ethSend
  | .SEND_USER => i.udpTxSend

/-- Combinational `user_ready` output: `fsm.ongoing("IDLE")`. -/
def ipStackUserReady (s : IPStackState) : Bool :=
  decide (s.fsm = StackFsm.IDLE)

/-- C10: when the stack is idle and a user transmit request and a received
frame are asserted in the same cycle, the user transmit wins: the FSM
enters `SEND_USER` without pulsing `rx_ack`; `rx_ack` is never pulsed
during `SEND_USER`; the FSM returns to `IDLE` when the UDP-transmit layer
reports done; and back in idle, a still-pending `rx_valid` (with no new
user request) is then acknowledged and processed. -/
theorem user_tx_priority :
    (∀ (s : IPStackState) (i : IPStackIn), s.fsm = StackFsm.IDLE →
      i.userTx = true → i.rxValid = true →
      (ipStackStep s i).fsm = StackFsm.SEND_USER ∧ (ipStackStep s i).rxAck = s.rxAck)
    ∧ (∀ (s : IPStackState) (i : IPStackIn), s.fsm = StackFsm.SEND_USER →
      (ipStackStep s i).rxAck = s.rxAck
      ∧ (ipStackStep s i).fsm = (if i.udpTxDone then StackFsm.IDLE else StackFsm.SEND_USER))
    ∧ (∀ (s : IPStackState) (i : IPStackIn), s.fsm = StackFsm.IDLE →
      i.userTx = false → i.rxValid = true →
      (ipStackStep s i).fsm = StackFsm.PROCESS_RX ∧ (ipStackStep s i).rxAck = true) := by
  refine ⟨fun s i hs hu hr => ?_, fun s i hs => ?_, fun s i hs hu hr => ?_⟩
  · obtain ⟨f, ra, rad, txo, er, ur⟩ := s
    simp only at hs
    subst hs
    simp [ipStackStep, hu]
  · obtain ⟨f, ra, rad, txo, er, ur⟩ := s
    simp only at hs
    subst hs
    simp [ipStackStep]
  · obtain ⟨f, ra, rad, txo, er, ur⟩ := s
    simp only at hs
    subst hs
    simp [ipStackStep, hu, hr]

/-- Witness for `user_tx_priority` at concrete states and inputs. -/
theorem user_tx_priority_witness :
    ((ipStackStep ⟨StackFsm.IDLE, false, 0, 0, false, false⟩
        ⟨true, true, 4, false, false, 0, false, false, 0⟩).fsm = StackFsm.SEND_USER
      ∧ (ipStackStep ⟨StackFsm.IDLE, false, 0, 0, false, false⟩
        ⟨true, true, 4, false, false, 0, false, false, 0⟩).rxAck = false)
    ∧ ((ipStackStep ⟨StackFsm.SEND_USER, false, 0, 0, false, true⟩
        ⟨false, true, 4, false, false, 0, true, true, 58⟩).fsm = StackFsm.IDLE)
    ∧ ((ipStackStep ⟨StackFsm.IDLE, false, 0, 0, false, false⟩
        ⟨false, true, 4, false, false, 0, false, false, 0⟩).fsm = StackFsm.PROCESS_RX
      ∧ (ipStackStep ⟨StackFsm.IDLE, false, 0, 0, false, false⟩
        ⟨false, true, 4, false, false, 0, false, false, 0⟩).rxAck = true) := by
  refine ⟨user_tx_priority.1 _ _ rfl rfl rfl, ?_, user_tx_priority.2.2 _ _ rfl rfl rfl⟩
  have h := (user_tx_priority.2.1 ⟨StackFsm.SEND_USER, false, 0, 0, false, true⟩
    ⟨false, true, 4, false, false, 0, true, true, 58⟩ rfl).2
  simpa using h

/-! ## The protocol layers (`_StackLayer` subclasses in ip.py)

Each layer's `elaborate` builds a byte-per-state FSM from the cursor
primitives `skip`, `copy`, `copy_extract`, `extract`, `check`,
`copy_check`, `copy_sig_n`, `extract_to_mem`, `write` and `switch`.  We
embed each layer as a pure function from the byte stream it is handed
(starting at its own sub-header) to:

  * `txWrites`: the (layer-relative address, byte) pairs it drives onto
    `tx_addr`/`tx_data`/`tx_en`, in emission order — a parent layer's
    `switch` state mirrors its child's writes shifted by the switch state
    index (14 for Ethernet, 20 for IPv4);
  * `send` and `txLen`: the `send`/`tx_len` handshake outputs
    (`txLen` is meaningful when `send` is true);
  * `aborted`: whether a `check`/`copy_check` mismatch sent the FSM to
    `DONE_NO_TX` (an unknown `switch` selector also yields no reply but is
    recorded as `send = false` with `aborted = false`);
  * `userWrites`, `cache`, `userRx`: the UDP layer's writes into the user
    receive memory, its update of the `user_last_mac/ip4/port` registers,
    and its `user_rx` pulse.

On a `copy_check` mismatch the write of the mismatching byte itself still
happens (the primitive drives `tx_en` before branching to `DONE_NO_TX`).

The `_InternetChecksum` instances of the IPv4 and ICMPv4 layers see the
layer's own `tx_data`/`tx_en` with `lowbyte = tx_addr[0]`, reset by `done`;
the `write("CHECKSUM", val=ipchecksum.checksum, ...)` states sample the
accumulator after all writes already emitted — the register's one-cycle
update lag only excludes the single write issued on the immediately
preceding state, which in both layers is a zero byte (the last
`ID_FLAGS_FRAG` byte, resp. the `CODE` byte) and contributes nothing, and
the checksum's own bytes are only accumulated after both sample states. -/

structure StackConfig where
  macAddr : Nat
  ip4Addr : Nat
  userUdpLen : Nat
  userUdpPort : Nat

/-- Byte `i` of the remaining input stream as seen on the 8-bit `rx_data`. -/
def rdByte (rx : List Nat) (i : Nat) : Nat := rx.getD i 0 % 256

/-- Byte `i` (in transmission order) of an `n`-byte big-endian value, per
the primitives' `val_byte = (val >> 8*(n-i-1)) & 0xFF`. -/
def valByte (val n i : Nat) : Nat := (val >>> (8 * (n - i - 1))) % 256

/-- The `n` big-endian bytes of `val`, in transmission order. -/
def valBytes (val n : Nat) : List Nat :=
  (List.range n).map (valByte val n)

/-- The register assembly performed by `extract`/`copy_extract` with
`bigendian=True`: byte `i` lands at bits `8*(n-i-1)`. -/
def extractBE (rx : List Nat) (n : Nat) : Nat :=
  (List.range n).foldl (fun acc i => acc * 256 + rdByte rx i) 0

/-- Writes of `copy`/`copy_extract`/`copy_sig_n`/`extract_to_mem`: `n`
input bytes to offsets `dst`, `dst+1`, …. -/
def copyOp (dst : Nat) : Nat → List Nat → List (Nat × Nat)
  | 0, _ => []
  | n + 1, rx => (dst, rdByte rx 0) :: copyOp (dst + 1) n (rx.drop 1)

/-- Writes of the `write` primitive: `n` big-endian bytes of `val` at
offsets `dst`, …. -/
def writeOp (val dst n : Nat) : List (Nat × Nat) :=
  (List.range n).map (fun i => (dst + i, valByte val n i))

/-- One `check` state per expected byte: compare the input byte against
the next big-endian byte of the checked value, and proceed only on match. -/
def checkRun : List Nat → List Nat → Bool
  | [], _ => true
  | v :: vs, rx => rdByte rx 0 == v && checkRun vs (rx.drop 1)

/-- The comparison performed by `check`/`copy_check`: every one of the `n`
input bytes equals the corresponding big-endian byte of `val`. -/
def checkOk (val n : Nat) (rx : List Nat) : Bool :=
  checkRun (valBytes val n) rx

/-- One `copy_check` state per expected byte: the byte is written to the
output as it is compared; a mismatching byte is itself still written
before the FSM aborts to `DONE_NO_TX`. -/
def copyCheckAux (dst : Nat) : List Nat → List Nat → List (Nat × Nat)
  | [], _ => []
  | v :: vs, rx =>
      (dst, rdByte rx 0) ::
        (if rdByte rx 0 = v then copyCheckAux (dst + 1) vs (rx.drop 1) else [])

/-- Writes of `copy_check` for an `n`-byte big-endian value. -/
def copyCheckW (val n dst : Nat) (rx : List Nat) : List (Nat × Nat) :=
  copyCheckAux dst (valBytes val n) rx

/-- Result of running one layer over a received byte stream. -/
structure LayerOut where
  txWrites : List (Nat × Nat)
  send : Bool
  txLen : Nat
  aborted : Bool
  userWrites : List (Nat × Nat)
  cache : Option (Nat × Nat × Nat)
  userRx : Bool
deriving DecidableEq

/-- The `DONE_NO_TX` outcome: no send, no user-side effects. -/
def noReply (w : List (Nat × Nat)) (ab : Bool) : LayerOut :=
  ⟨w, false, 0, ab, [], none, false⟩

/-- Shift child writes by the parent's switch-state index (the parent
mirrors `submod.tx_addr + fsm_ctr`). -/
def shiftW (k : Nat) (ws : List (Nat × Nat)) : List (Nat × Nat) :=
  ws.map (fun p => (p.1 + k, p.2))

/-- Checksum-engine inputs generated by a write stream:
`data = tx_data`, `lowbyte = tx_addr[0]`. -/
def icOfWrites (ws : List (Nat × Nat)) : List (Nat × Bool) :=
  ws.map (fun p => (p.2, p.1 % 2 = 1))

/-- `_ARPLayer`: replies to ARP requests for the configured IPv4 address. -/
def arpLayer (cfg : StackConfig) (rx : List Nat) : LayerOut :=
  -- copy "HTYPE" dst=0 n=2
  let w0 := copyOp 0 2 rx
  let rx1 := rx.drop 2
  -- copy_check "PTYPE" val=0x0800 dst=2 n=2
  let w1 := w0 ++ copyCheckW 0x0800 2 2 rx1
  if !checkOk 0x0800 2 rx1 then noReply w1 true else
  let rx2 := rx1.drop 2
  -- copy "LEN" dst=4 n=2
  let w2 := w1 ++ copyOp 4 2 rx2
  let rx3 := rx2.drop 2
  -- check "OPER" val=1 n=2
  if !checkOk 1 2 rx3 then noReply w2 true else
  let rx4 := rx3.drop 2
  -- copy "SHA" dst=18 n=6
  let w3 := w2 ++ copyOp 18 6 rx4
  let rx5 := rx4.drop 6
  -- copy "SPA" dst=24 n=4
  let w4 := w3 ++ copyOp 24 4 rx5
  let rx6 := rx5.drop 4
  -- skip "THA" n=6
  let rx7 := rx6.drop 6
  -- copy_check "TPA" val=ip4_addr dst=14 n=4
  let w5 := w4 ++ copyCheckW cfg.ip4Addr 4 14 rx7
  if !checkOk cfg.ip4Addr 4 rx7 then noReply w5 true else
  -- write "OPER" val=2 dst=6 n=2 ; write "SHA" val=mac_addr dst=8 n=6
  -- end_fsm(tx_len=28, send=True)
  ⟨w5 ++ writeOp 2 6 2 ++ writeOp cfg.macAddr 8 6, true, 28, false, [], none, false⟩

/-- `_ICMPv4Layer`: replies to echo requests.  `payload_n` is the parent's
`total_length - 28` truncated to the 11-bit signal. -/
def icmpLayer (totalLength : Nat) (rx : List Nat) : LayerOut :=
  let payloadN := (totalLength + 2048 - 28) % 2048
  -- check "TYPE" val=8 ; check "CODE" val=0
  if !checkOk 8 1 rx then noReply [] true else
  let rx1 := rx.drop 1
  if !checkOk 0 1 rx1 then noReply [] true else
  let rx2 := rx1.drop 1
  -- skip "CHECKSUM" n=2
  let rx3 := rx2.drop 2
  -- copy "IDENTIFIER" dst=4 n=2 ; copy "SEQUENCE" dst=6 n=2
  let w0 := copyOp 4 2 rx3
  let rx4 := rx3.drop 2
  let w1 := w0 ++ copyOp 6 2 rx4
  let rx5 := rx4.drop 2
  -- copy_sig_n "PAYLOAD" dst=8 n=payload_n: the state's exit comparison is
  -- `ctr == payload_n - 1`, which can never hold when payload_n = 0 (the
  -- subtraction wraps below the counter's range), so the FSM never leaves
  -- the copy state: it keeps writing arriving bytes, `done` never pulses,
  -- the trailing writes are never performed and no send is requested.
  if payloadN = 0 then
    ⟨w1 ++ copyOp 8 rx5.length rx5, false, 0, false, [], none, false⟩ else
  let w2 := w1 ++ copyOp 8 payloadN rx5
  -- write "TYPE" val=0 dst=0 ; write "CODE" val=0 dst=1
  let w3 := w2 ++ writeOp 0 0 1 ++ writeOp 0 1 1
  -- write "CHECKSUM" val=ipchecksum.checksum dst=2 n=2
  let ck := icOut (icFeed 0 (icOfWrites w3))
  -- end_fsm(tx_len=total_length - 20, send=True)
  ⟨w3 ++ writeOp ck 2 2, true, (totalLength + 2048 - 20) % 2048, false, [], none, false⟩

/-- `_UDPLayer`: receives UDP datagrams on the configured port into the
user memory and records the sender in the `user_last_*` registers. -/
def udpLayer (cfg : StackConfig) (srcMac sourceIp : Nat) (rx : List Nat) : LayerOut :=
  -- extract "SRC_PORT" n=2
  let srcPort := extractBE rx 2
  let rx1 := rx.drop 2
  -- check "DST_PORT" val=udp_port n=2
  if !checkOk cfg.userUdpPort 2 rx1 then noReply [] true else
  let rx2 := rx1.drop 2
  -- check "LENGTH" val=udp_len+8 n=2
  if !checkOk (cfg.userUdpLen + 8) 2 rx2 then noReply [] true else
  let rx3 := rx2.drop 2
  -- skip "CHECKSUM" n=2
  let rx4 := rx3.drop 2
  -- extract_to_mem "DATA" write_port dst=0 n=udp_len: the state's exit
  -- comparison is `ctr == n - 1`, which can never hold when udp_len = 0
  -- (n is Const(0)), so the FSM never leaves the copy state: arriving
  -- bytes keep being written to the user memory, but the cache-update and
  -- `user_rx` states are never reached.
  if cfg.userUdpLen = 0 then
    ⟨[], false, 0, false, copyOp 0 rx4.length rx4, none, false⟩ else
  let uw := copyOp 0 cfg.userUdpLen rx4
  -- custom state: latch user_last_mac/ip4/port; pulse user_rx
  -- end_fsm(send=False)
  ⟨[], false, 0, false, uw, some (srcMac, sourceIp, srcPort), true⟩

/-- Completion of the IPv4 layer after its `switch` state: mirror the
child's writes at offset 20; if the child requests a send, emit the
post-switch header writes (`DSCP_ECN` 0 at 1, `TOTAL_LENGTH` =
`child_tx_len + 20` at 2..3, `TTL` 64 at 8, `ID_FLAGS_FRAG` 0 at 4..7, then
`CHECKSUM` = the accumulator value at 10..11) and report
`tx_len = 20 + child_tx_len` with send; otherwise go to `DONE_NO_TX`
keeping the child's user-side effects. -/
def ipv4Finish (w3 : List (Nat × Nat)) (c : LayerOut) : LayerOut :=
  if c.send then
    let w4 := w3 ++ shiftW 20 c.txWrites ++ writeOp 0 1 1
      ++ writeOp (c.txLen + 20) 2 2 ++ writeOp 64 8 1 ++ writeOp 0 4 4
    let ck := icOut (icFeed 0 (icOfWrites w4))
    ⟨w4 ++ writeOp ck 10 2, true, (20 + c.txLen) % 2048,
      c.aborted, c.userWrites, c.cache, c.userRx⟩
  else
    ⟨w3 ++ shiftW 20 c.txWrites, false, 0, c.aborted, c.userWrites, c.cache, c.userRx⟩

/-- `_IPv4Layer`: parses the IPv4 header, dispatches on the protocol field
to ICMPv4 or UDP, and on a reply fills in the outgoing header including a
freshly computed header checksum. -/
def ipv4Layer (cfg : StackConfig) (srcMac : Nat) (rx : List Nat) : LayerOut :=
  -- copy_check "VER_IHL" val=0x45 dst=0 n=1
  let w0 := copyCheckW 0x45 1 0 rx
  if !checkOk 0x45 1 rx then noReply w0 true else
  let rx1 := rx.drop 1
  -- skip "DSCP_ECN" n=1
  let rx2 := rx1.drop 1
  -- extract "TOTAL_LENGTH" n=2
  let totalLength := extractBE rx2 2
  let rx3 := rx2.drop 2
  -- skip "ID_FRAG_TTL" n=5
  let rx4 := rx3.drop 5
  -- copy_extract "PROTO" dst=9 n=1
  let protocol := extractBE rx4 1
  let w1 := w0 ++ copyOp 9 1 rx4
  let rx5 := rx4.drop 1
  -- skip "CHECKSUM" n=2
  let rx6 := rx5.drop 2
  -- copy_extract "SOURCE" dst=16 n=4
  let sourceIp := extractBE rx6 4
  let w2 := w1 ++ copyOp 16 4 rx6
  let rx7 := rx6.drop 4
  -- copy_check "DEST" val=ip4_addr dst=12 n=4
  let w3 := w2 ++ copyCheckW cfg.ip4Addr 4 12 rx7
  if !checkOk cfg.ip4Addr 4 rx7 then noReply w3 true else
  let rx8 := rx7.drop 4
  -- switch(protocol, {0x01: icmpv4, 0x11: udp}) in state 20
  if protocol = 0x01 then ipv4Finish w3 (icmpLayer totalLength rx8)
  else if protocol = 0x11 then ipv4Finish w3 (udpLayer cfg srcMac sourceIp rx8)
  else noReply w3 false

/-- Completion of the Ethernet layer after its `switch` state: mirror the
child's writes at offset 14; if the child requests a send, write the
engine's own MAC address as the Ethernet source (`write "SRC"` at 6..11)
and report `tx_len = 14 + child_tx_len` with send; otherwise
`DONE_NO_TX`, keeping the child's user-side effects. -/
def ethFinish (cfg : StackConfig) (w1 : List (Nat × Nat)) (c : LayerOut) : LayerOut :=
  if c.send then
    ⟨w1 ++ shiftW 14 c.txWrites ++ writeOp cfg.macAddr 6 6, true,
      (14 + c.txLen) % 2048, c.aborted, c.userWrites, c.cache, c.userRx⟩
  else
    ⟨w1 ++ shiftW 14 c.txWrites, false, 0, c.aborted, c.userWrites, c.cache, c.userRx⟩

/-- `_EthernetLayer`: mirrors source address and EtherType into the reply,
dispatches on EtherType to ARP or IPv4, and fills in its own source
address when a reply is sent. -/
def ethLayer (cfg : StackConfig) (rx : List Nat) : LayerOut :=
  -- skip "DST" n=6 (pre-validated by the MAC address filter)
  let rx1 := rx.drop 6
  -- copy_extract "SRC" dst=0 n=6
  let srcMac := extractBE rx1 6
  let w0 := copyOp 0 6 rx1
  let rx2 := rx1.drop 6
  -- copy_extract "ETYPE" dst=12 n=2
  let ethertype := extractBE rx2 2
  let w1 := w0 ++ copyOp 12 2 rx2
  let rx3 := rx2.drop 2
  -- switch(ethertype, {0x0806: arp, 0x0800: ipv4}) in state 14
  if ethertype = 0x0806 then ethFinish cfg w1 (arpLayer cfg rx3)
  else if ethertype = 0x0800 then ethFinish cfg w1 (ipv4Layer cfg srcMac rx3)
  else noReply w1 false

/-- Value left at transmit-region address `a` by a write stream (later
writes win; unwritten addresses read as `d`). -/
def renderByte (ws : List (Nat × Nat)) (d a : Nat) : Nat :=
  ws.foldl (fun acc p => if p.1 = a then p.2 else acc) d

/-- The reply frame as a byte list: the first `txLen` bytes of the
transmit region (unwritten positions read as 0). -/
def replyBytes (out : LayerOut) : List Nat :=
  (List.range out.txLen).map (renderByte out.txWrites 0)

/-! ### C8: a failed protocol-layer check aborts with no side effects -/

/-- A layer outcome with no observable effect: nothing to transmit, no
user-memory writes, no endpoint-cache update, no received-packet pulse. -/
def noSideEffects (o : LayerOut) : Prop :=
  o.send = false ∧ o.userWrites = [] ∧ o.cache = none ∧ o.userRx = false

lemma noReply_clean (w : List (Nat × Nat)) (ab : Bool) : noSideEffects (noReply w ab) := by
  simp [noSideEffects, noReply]

lemma arp_aborted_clean (cfg : StackConfig) (rx : List Nat)
    (h : (arpLayer cfg rx).aborted = true) : noSideEffects (arpLayer cfg rx) := by
  simp only [arpLayer] at h ⊢
  split_ifs at h ⊢ <;> first
    | exact noReply_clean _ _
    | simp at h

lemma icmp_aborted_clean (tl : Nat) (rx : List Nat)
    (h : (icmpLayer tl rx).aborted = true) : noSideEffects (icmpLayer tl rx) := by
  simp only [icmpLayer] at h ⊢
  split_ifs at h ⊢ <;> first
    | exact noReply_clean _ _
    | simp at h

lemma udp_aborted_clean (cfg : StackConfig) (srcMac sourceIp : Nat) (rx : List Nat)
    (h : (udpLayer cfg srcMac sourceIp rx).aborted = true) :
    noSideEffects (udpLayer cfg srcMac sourceIp rx) := by
  simp only [udpLayer] at h ⊢
  split_ifs at h ⊢ <;> first
    | exact noReply_clean _ _
    | simp at h

lemma ipv4Finish_aborted (w3 : List (Nat × Nat)) (c : LayerOut) :
    (ipv4Finish w3 c).aborted = c.aborted := by
  simp only [ipv4Finish]
  split_ifs <;> rfl

lemma ipv4Finish_clean (w3 : List (Nat × Nat)) (c : LayerOut)
    (h : noSideEffects c) : noSideEffects (ipv4Finish w3 c) := by
  simp only [ipv4Finish, h.1]
  simp [noSideEffects, h.2.1, h.2.2.1, h.2.2.2]

lemma ipv4_aborted_clean (cfg : StackConfig) (srcMac : Nat) (rx : List Nat)
    (h : (ipv4Layer cfg srcMac rx).aborted = true) :
    noSideEffects (ipv4Layer cfg srcMac rx) := by
  simp only [ipv4Layer] at h ⊢
  split_ifs at h ⊢ with h1 h2 h3 h4
  · exact noReply_clean _ _
  · exact noReply_clean _ _
  · rw [ipv4Finish_aborted] at h
    exact ipv4Finish_clean _ _ (icmp_aborted_clean _ _ h)
  · rw [ipv4Finish_aborted] at h
    exact ipv4Finish_clean _ _ (udp_aborted_clean _ _ _ _ h)
  · simp [noReply] at h

lemma ethFinish_aborted (cfg : StackConfig) (w1 : List (Nat × Nat)) (c : LayerOut) :
    (ethFinish cfg w1 c).aborted = c.aborted := by
  simp only [ethFinish]
  split_ifs <;> rfl

lemma ethFinish_clean (cfg : StackConfig) (w1 : List (Nat × Nat)) (c : LayerOut)
    (h : noSideEffects c) : noSideEffects (ethFinish cfg w1 c) := by
  simp only [ethFinish, h.1]
  simp [noSideEffects, h.2.1, h.2.2.1, h.2.2.2]

lemma eth_aborted_clean (cfg : StackConfig) (rx : List Nat)
    (h : (ethLayer cfg rx).aborted = true) : noSideEffects (ethLayer cfg rx) := by
  simp only [ethLayer] at h ⊢
  split_ifs at h ⊢ with h1 h2
  · rw [ethFinish_aborted] at h
    exact ethFinish_clean _ _ _ (arp_aborted_clean _ _ h)
  · rw [ethFinish_aborted] at h
    exact ethFinish_clean _ _ _ (ipv4_aborted_clean _ _ _ h)
  · simp [noReply] at h

/-- C8: for any frame on which a protocol-layer `check` fails (in the ARP,
IPv4, ICMP or UDP layer), the reply path aborts with no side effects: the
layers request no transmission, write nothing to the user receive memory,
leave the endpoint cache unwritten and do not pulse `user_rx`; and at the
top level, when the Ethernet layer reports done without send, `tx_start`
is not pulsed and the transmit offset is unchanged. -/
theorem check_failure_no_side_effects (cfg : StackConfig) (rx : List Nat)
    (h : (ethLayer cfg rx).aborted = true) :
    (ethLayer cfg rx).send = false
    ∧ (ethLayer cfg rx).userWrites = []
    ∧ (ethLayer cfg rx).cache = none
    ∧ (ethLayer cfg rx).userRx = false
    ∧ (∀ (s : IPStackState) (i : IPStackIn), s.fsm = StackFsm.PROCESS_RX →
        i.ethSend = (ethLayer cfg rx).send →
        (ipStackStep s i).txOffset = s.txOffset ∧ ipStackTxStart s i = false) := by
  have hc := eth_aborted_clean cfg rx h
  refine ⟨hc.1, hc.2.1, hc.2.2.1, hc.2.2.2, fun s i hs hsend => ?_⟩
  rw [hc.1] at hsend
  obtain ⟨f, ra, rad, txo, er, ur⟩ := s
  simp only at hs
  subst hs
  simp [ipStackStep, ipStackTxStart, hsend]

/-- Witness for `check_failure_no_side_effects`: an ARP frame whose OPER
field is 2 (a reply, not a request) fails the ARP layer's OPER check. -/
theorem check_failure_no_side_effects_witness :
    ((ethLayer ⟨0x0123456789AB, 0x0A000005, 0, 0⟩
        [0xFF, 0xFF, 0xFF, 0xFF, 0xFF, 0xFF,
         0x00, 0x01, 0x02, 0x03, 0x04, 0x05,
         0x08, 0x06,
         0x00, 0x01, 0x08, 0x00, 0x06, 0x04, 0x00, 0x02,
         0x00, 0x01, 0x02, 0x03, 0x04, 0x05,
         0x0A, 0x00, 0x00, 0x01,
         0x00, 0x00, 0x00, 0x00, 0x00, 0x00,
         0x0A, 0x00, 0x00, 0x05]).send = false)
    ∧ ((ethLayer ⟨0x0123456789AB, 0x0A000005, 0, 0⟩
        [0xFF, 0xFF, 0xFF, 0xFF, 0xFF, 0xFF,
         0x00, 0x01, 0x02, 0x03, 0x04, 0x05,
         0x08, 0x06,
         0x00, 0x01, 0x08, 0x00, 0x06, 0x04, 0x00, 0x02,
         0x00, 0x01, 0x02, 0x03, 0x04, 0x05,
         0x0A, 0x00, 0x00, 0x01,
         0x00, 0x00, 0x00, 0x00, 0x00, 0x00,
         0x0A, 0x00, 0x00, 0x05]).userWrites = []) := by
  have h := check_failure_no_side_effects ⟨0x0123456789AB, 0x0A000005, 0, 0⟩
    [0xFF, 0xFF, 0xFF, 0xFF, 0xFF, 0xFF,
     0x00, 0x01, 0x02, 0x03, 0x04, 0x05,
     0x08, 0x06,
     0x00, 0x01, 0x08, 0x00, 0x06, 0x04, 0x00, 0x02,
     0x00, 0x01, 0x02, 0x03, 0x04, 0x05,
     0x0A, 0x00, 0x00, 0x01,
     0x00, 0x00, 0x00, 0x00, 0x00, 0x00,
     0x0A, 0x00, 0x00, 0x05] (by decide)
  exact ⟨h.1, h.2.1⟩

/-! ### The checksum bridge

The hardware accumulator (`icFeed`) and the reference RFC 1071 fold
(`rfcSum`) both compute the canonical ones'-complement representative of
the plain sum of their inputs modulo 65535: a value in `[0, 65535]`,
congruent to the sum, and zero exactly when the sum is zero.  The
accumulator's pending carry bit is guaranteed to be folded in by the time
it is sampled because both sampling sites are preceded by at least two
zero-byte writes. -/

/-- The canonical ones'-complement representative of `S` modulo 65535. -/
def canonRep (S : Nat) : Nat :=
  if S = 0 then 0 else (S - 1) % 65535 + 1

/-- The 16-bit quantity a (data, lowbyte) pair adds into the accumulator. -/
def contrib (d : Nat × Bool) : Nat :=
  if d.2 then d.1 % 256 else d.1 % 256 * 256

/-- Plain sum of the contributions of a feed list. -/
def contribSum (ds : List (Nat × Bool)) : Nat :=
  (ds.map contrib).sum

lemma contrib_le (d : Nat × Bool) : contrib d ≤ 65280 := by
  have h : d.1 % 256 ≤ 255 := by omega
  unfold contrib
  split_ifs <;> omega

lemma icStep_lt (s : Nat) (d : Nat × Bool) : icStep s d < 131072 := by
  unfold icStep
  omega

lemma icStep_eq (s : Nat) (d : Nat × Bool) (hs : s < 131072) :
    icStep s d = s % 65536 + contrib d + s / 65536 := by
  have hc := contrib_le d
  have h1 : s % 65536 < 65536 := by omega
  have h2 : s / 65536 ≤ 1 := by omega
  unfold icStep contrib at *
  split_ifs at * <;> omega

lemma icStep_modeq (s : Nat) (d : Nat × Bool) (hs : s < 131072) :
    icStep s d ≡ s + contrib d [MOD 65535] := by
  rw [icStep_eq s d hs]
  have h : s = 65536 * (s / 65536) + s % 65536 := (Nat.div_add_mod s 65536).symm
  calc s % 65536 + contrib d + s / 65536
      ≡ s % 65536 + contrib d + 65536 * (s / 65536) [MOD 65535] := by
        exact Nat.ModEq.add_left _ (by
          have : (65536 : Nat) * (s / 65536) ≡ 1 * (s / 65536) [MOD 65535] :=
            Nat.ModEq.mul_right _ (by decide)
          simpa using this.symm)
    _ = s + contrib d := by omega

lemma icFeed_modeq (ds : List (Nat × Bool)) (s : Nat) (hs : s < 131072) :
    icFeed s ds ≡ s + contribSum ds [MOD 65535] := by
  induction ds generalizing s with
  | nil =>
    simp only [icFeed, List.foldl_nil, contribSum, List.map_nil, List.sum_nil, Nat.add_zero]
    rfl
  | cons d t ih =>
    have h1 : icFeed s (d :: t) = icFeed (icStep s d) t := by
      simp [icFeed]
    rw [h1]
    calc icFeed (icStep s d) t
        ≡ icStep s d + contribSum t [MOD 65535] := ih _ (icStep_lt s d)
      _ ≡ (s + contrib d) + contribSum t [MOD 65535] :=
          Nat.ModEq.add_right _ (icStep_modeq s d hs)
      _ = s + contribSum (d :: t) := by
          simp [contribSum]
          omega

lemma icStep_pos (s : Nat) (d : Nat × Bool) (hs : s < 131072) (h : 0 < s ∨ 0 < contrib d) :
    0 < icStep s d := by
  rw [icStep_eq s d hs]
  omega

lemma icFeed_pos (ds : List (Nat × Bool)) (s : Nat) (hs : s < 131072)
    (h : 0 < s ∨ 0 < contribSum ds) : 0 < icFeed s ds := by
  induction ds generalizing s with
  | nil =>
    rcases h with h | h
    · exact h
    · simp [contribSum] at h
  | cons d t ih =>
    have h1 : icFeed s (d :: t) = icFeed (icStep s d) t := by simp [icFeed]
    rw [h1]
    refine ih (icStep s d) (icStep_lt s d) ?_
    rcases h with h | h
    · exact Or.inl (icStep_pos s d hs (Or.inl h))
    · by_cases hd : 0 < contrib d
      · exact Or.inl (icStep_pos s d hs (Or.inr hd))
      · right
        have : contribSum (d :: t) = contrib d + contribSum t := by simp [contribSum]
        omega

lemma icFeed_zero (ds : List (Nat × Bool)) (h : contribSum ds = 0) :
    icFeed 0 ds = 0 := by
  induction ds with
  | nil => simp [icFeed]
  | cons d t ih =>
    have hsum : contrib d + contribSum t = contribSum (d :: t) := by simp [contribSum]
    have hd : contrib d = 0 := by omega
    have ht : contribSum t = 0 := by omega
    have h1 : icStep 0 d = 0 := by
      rw [icStep_eq 0 d (by norm_num), hd]
    have h2 : icFeed 0 (d :: t) = icFeed (icStep 0 d) t := by simp [icFeed]
    rw [h2, h1]
    exact ih ht

/-- After two trailing zero-contribution feeds the accumulator's carry bit
is clear: the state is at most 65535. -/
lemma icStep_zero_le (s : Nat) (d : Nat × Bool) (hs : s < 131072) (hd : contrib d = 0) :
    icStep s d ≤ 65536 := by
  rw [icStep_eq s d hs, hd]
  omega

lemma icStep_zero_le' (s : Nat) (d : Nat × Bool) (hs : s ≤ 65536) (hd : contrib d = 0) :
    icStep s d ≤ 65535 := by
  rw [icStep_eq s d (by omega), hd]
  omega

lemma uniq_canon (a b : Nat) (ha : a ≤ 65535) (hb : b ≤ 65535)
    (hm : a ≡ b [MOD 65535]) (hz : a = 0 ↔ b = 0) : a = b := by
  have h : a % 65535 = b % 65535 := hm
  omega

lemma canonRep_le (S : Nat) : canonRep S ≤ 65535 := by
  unfold canonRep
  split_ifs <;> omega

lemma canonRep_modeq (S : Nat) : canonRep S ≡ S [MOD 65535] := by
  unfold canonRep
  split_ifs with h
  · subst h
    rfl
  · show ((S - 1) % 65535 + 1) % 65535 = S % 65535
    omega

lemma canonRep_eq_zero (S : Nat) : canonRep S = 0 ↔ S = 0 := by
  unfold canonRep
  split_ifs with h
  · simp [h]
  · constructor
    · intro hz
      exact hz.elim
    · intro hz
      exact absurd hz h

lemma canonRep_congr (S T : Nat) (h : S ≡ T [MOD 65535]) (hS : 0 < S) (hT : 0 < T) :
    canonRep S = canonRep T := by
  have h' : S % 65535 = T % 65535 := h
  unfold canonRep
  split_ifs <;> omega

lemma icFeed_lt (ds : List (Nat × Bool)) (s : Nat) (hs : s < 131072) :
    icFeed s ds < 131072 := by
  induction ds generalizing s with
  | nil => exact hs
  | cons d t ih =>
    have h1 : icFeed s (d :: t) = icFeed (icStep s d) t := by simp [icFeed]
    rw [h1]
    exact ih _ (icStep_lt s d)

/-- The bridge: a feed list ending in two zero-contribution entries leaves
the accumulator's low 16 bits at the canonical representative of the
contribution sum. -/
lemma icFeed_canon (ys : List (Nat × Bool)) (d1 d2 : Nat × Bool)
    (h1 : contrib d1 = 0) (h2 : contrib d2 = 0) :
    icFeed 0 (ys ++ [d1, d2]) % 65536 = canonRep (contribSum ys) := by
  have hsplit : icFeed 0 (ys ++ [d1, d2]) = icStep (icStep (icFeed 0 ys) d1) d2 := by
    simp [icFeed, List.foldl_append]
  have hfy : icFeed 0 ys < 131072 := icFeed_lt ys 0 (by norm_num)
  have hle : icFeed 0 (ys ++ [d1, d2]) ≤ 65535 := by
    rw [hsplit]
    exact icStep_zero_le' _ _ (icStep_zero_le _ _ hfy h1) h2
  have hmod : icFeed 0 (ys ++ [d1, d2]) % 65536 = icFeed 0 (ys ++ [d1, d2]) :=
    Nat.mod_eq_of_lt (by omega)
  rw [hmod]
  have hsum : contribSum (ys ++ [d1, d2]) = contribSum ys := by
    simp [contribSum, contrib] at h1 h2 ⊢
    simp [h1, h2]
  refine uniq_canon _ _ hle (canonRep_le _) ?_ ?_
  · calc icFeed 0 (ys ++ [d1, d2])
        ≡ 0 + contribSum (ys ++ [d1, d2]) [MOD 65535] :=
          icFeed_modeq _ 0 (by norm_num)
      _ = contribSum ys := by rw [hsum]; omega
      _ ≡ canonRep (contribSum ys) [MOD 65535] := (canonRep_modeq _).symm
  · constructor
    · intro hz
      rw [canonRep_eq_zero]
      by_contra hnz
      have hpos : 0 < contribSum (ys ++ [d1, d2]) := by
        rw [hsum]
        omega
      have := icFeed_pos (ys ++ [d1, d2]) 0 (by norm_num) (Or.inr hpos)
      omega
    · intro hz
      rw [canonRep_eq_zero] at hz
      have : contribSum (ys ++ [d1, d2]) = 0 := by rw [hsum, hz]
      rw [icFeed_zero _ this]

/-- `rfcAdd` computes the canonical representative of the plain sum. -/
lemma rfcAdd_canon (a w : Nat) (ha : a ≤ 65535) (hw : w ≤ 65535) :
    rfcAdd a w = canonRep (a + w) := by
  unfold rfcAdd canonRep
  split_ifs <;> omega

lemma canonRep_absorb (x y : Nat) : canonRep (canonRep x + y) = canonRep (x + y) := by
  unfold canonRep
  split_ifs <;> omega

/-- The RFC 1071 fold of a list of 16-bit words is the canonical
representative of their plain sum. -/
lemma rfcSum_canon (ws : List Nat) (hw : ∀ w ∈ ws, w ≤ 65535) :
    rfcSum ws = canonRep ws.sum := by
  suffices h : ∀ a, a ≤ 65535 → ws.foldl rfcAdd a = canonRep (a + ws.sum) by
    have := h 0 (by norm_num)
    simpa [rfcSum] using this
  induction ws with
  | nil =>
    intro a ha
    simp only [List.foldl_nil, List.sum_nil, Nat.add_zero]
    unfold canonRep
    split_ifs <;> omega
  | cons w t ih =>
    intro a ha
    have hw0 : w ≤ 65535 := hw w (by simp)
    have ih' := ih (fun x hx => hw x (by simp [hx]))
    calc (w :: t).foldl rfcAdd a = t.foldl rfcAdd (rfcAdd a w) := by simp
      _ = canonRep (rfcAdd a w + t.sum) := ih' _ (by rw [rfcAdd_canon a w ha hw0]; exact canonRep_le _)
      _ = canonRep (a + (w :: t).sum) := by
          rw [rfcAdd_canon a w ha hw0, canonRep_absorb]
          simp
          ring_nf

/-! ### Helper lemmas for evaluating the layers on structured frames -/

lemma valByte_eq_div (val n i : Nat) :
    valByte val n i = val / 2 ^ (8 * (n - i - 1)) % 256 := by
  rw [valByte, Nat.shiftRight_eq_div_pow]

lemma valByte_mod (val n i : Nat) : valByte val n i % 256 = valByte val n i := by
  simp [valByte, Nat.mod_mod_of_dvd]

lemma valByte_lt (val n i : Nat) : valByte val n i < 256 := by
  simp [valByte]
  omega

lemma range_one : List.range 1 = [0] := rfl
lemma range_two : List.range 2 = [0, 1] := rfl
lemma range_four : List.range 4 = [0, 1, 2, 3] := rfl
lemma range_six : List.range 6 = [0, 1, 2, 3, 4, 5] := rfl

/-! ### C3: ARP request handling -/

lemma mod256_mod256 (a : Nat) : a % 256 % 256 = a % 256 :=
  Nat.mod_mod_of_dvd a dvd_rfl

lemma range_fortytwo : List.range 42 =
    [0, 1, 2, 3, 4, 5, 6, 7, 8, 9, 10, 11, 12, 13, 14, 15, 16, 17, 18, 19, 20,
     21, 22, 23, 24, 25, 26, 27, 28, 29, 30, 31, 32, 33, 34, 35, 36, 37, 38,
     39, 40, 41] := rfl

set_option maxHeartbeats 2000000 in
/-- C3: an ARP request frame whose target protocol address is the
configured IPv4 address (PTYPE 0x0800, OPER 1) produces a 42-byte reply:
the requester's Ethernet source becomes the reply's destination, the
engine's MAC its source, OPER becomes 2, the engine's MAC and IPv4 address
fill the sender fields, and the requester's sender hardware/protocol
addresses fill the target fields; and any ARP-layer check failure (wrong
PTYPE, wrong OPER, or wrong target protocol address) yields no reply. -/
theorem arp_request_reply (cfg : StackConfig)
    (d0 d1 d2 d3 d4 d5 s0 s1 s2 s3 s4 s5 h1 h2 hl pl
      a0 a1 a2 a3 a4 a5 p0 p1 p2 p3 t0 t1 t2 t3 t4 t5 : Nat)
    (hb : ∀ x ∈ [s0, s1, s2, s3, s4, s5, h1, h2, hl, pl,
      a0, a1, a2, a3, a4, a5, p0, p1, p2, p3], x < 256) :
    (ethLayer cfg
        ([d0, d1, d2, d3, d4, d5] ++ [s0, s1, s2, s3, s4, s5] ++ [0x08, 0x06]
          ++ [h1, h2] ++ [0x08, 0x00] ++ [hl, pl] ++ [0x00, 0x01]
          ++ [a0, a1, a2, a3, a4, a5] ++ [p0, p1, p2, p3]
          ++ [t0, t1, t2, t3, t4, t5] ++ valBytes cfg.ip4Addr 4)).send = true
    ∧ (ethLayer cfg
        ([d0, d1, d2, d3, d4, d5] ++ [s0, s1, s2, s3, s4, s5] ++ [0x08, 0x06]
          ++ [h1, h2] ++ [0x08, 0x00] ++ [hl, pl] ++ [0x00, 0x01]
          ++ [a0, a1, a2, a3, a4, a5] ++ [p0, p1, p2, p3]
          ++ [t0, t1, t2, t3, t4, t5] ++ valBytes cfg.ip4Addr 4)).txLen = 42
    ∧ replyBytes (ethLayer cfg
        ([d0, d1, d2, d3, d4, d5] ++ [s0, s1, s2, s3, s4, s5] ++ [0x08, 0x06]
          ++ [h1, h2] ++ [0x08, 0x00] ++ [hl, pl] ++ [0x00, 0x01]
          ++ [a0, a1, a2, a3, a4, a5] ++ [p0, p1, p2, p3]
          ++ [t0, t1, t2, t3, t4, t5] ++ valBytes cfg.ip4Addr 4))
      = [s0, s1, s2, s3, s4, s5] ++ valBytes cfg.macAddr 6 ++ [0x08, 0x06]
        ++ [h1, h2] ++ [0x08, 0x00] ++ [hl, pl] ++ [0x00, 0x02]
        ++ valBytes cfg.macAddr 6 ++ valBytes cfg.ip4Addr 4
        ++ [a0, a1, a2, a3, a4, a5] ++ [p0, p1, p2, p3]
    ∧ (∀ rx : List Nat,
        (¬ checkOk 0x0800 2 (rx.drop 2) = true ∨ ¬ checkOk 1 2 (rx.drop 6) = true
          ∨ ¬ checkOk cfg.ip4Addr 4 (rx.drop 24) = true) →
        (arpLayer cfg rx).send = false ∧ (arpLayer cfg rx).aborted = true) := by
  have e : ∀ x ∈ [s0, s1, s2, s3, s4, s5, h1, h2, hl, pl,
      a0, a1, a2, a3, a4, a5, p0, p1, p2, p3], x % 256 = x :=
    fun x hx => Nat.mod_eq_of_lt (hb x hx)
  have es0 := e s0 (by simp); have es1 := e s1 (by simp); have es2 := e s2 (by simp)
  have es3 := e s3 (by simp); have es4 := e s4 (by simp); have es5 := e s5 (by simp)
  have eh1 := e h1 (by simp); have eh2 := e h2 (by simp)
  have ehl := e hl (by simp); have epl := e pl (by simp)
  have ea0 := e a0 (by simp); have ea1 := e a1 (by simp); have ea2 := e a2 (by simp)
  have ea3 := e a3 (by simp); have ea4 := e a4 (by simp); have ea5 := e a5 (by simp)
  have ep0 := e p0 (by simp); have ep1 := e p1 (by simp); have ep2 := e p2 (by simp)
  have ep3 := e p3 (by simp)
  refine ⟨?_, ?_, ?_, ?_⟩
  · simp [ethLayer, arpLayer, ethFinish, checkOk, checkRun, copyCheckW,
      copyCheckAux, copyOp, writeOp, valBytes, valByte, extractBE, rdByte,
      shiftW, noReply, mod256_mod256,
      range_one, range_two, range_four, range_six,
      es0, es1, es2, es3, es4, es5, eh1, eh2, ehl, epl,
      ea0, ea1, ea2, ea3, ea4, ea5, ep0, ep1, ep2, ep3]
  · simp [ethLayer, arpLayer, ethFinish, checkOk, checkRun, copyCheckW,
      copyCheckAux, copyOp, writeOp, valBytes, valByte, extractBE, rdByte,
      shiftW, noReply, mod256_mod256,
      range_one, range_two, range_four, range_six,
      es0, es1, es2, es3, es4, es5, eh1, eh2, ehl, epl,
      ea0, ea1, ea2, ea3, ea4, ea5, ep0, ep1, ep2, ep3]
  · simp [ethLayer, arpLayer, ethFinish, checkOk, checkRun, copyCheckW,
      copyCheckAux, copyOp, writeOp, valBytes, valByte, extractBE, rdByte,
      shiftW, noReply, replyBytes, renderByte, mod256_mod256, range_fortytwo,
      range_one, range_two, range_four, range_six,
      es0, es1, es2, es3, es4, es5, eh1, eh2, ehl, epl,
      ea0, ea1, ea2, ea3, ea4, ea5, ep0, ep1, ep2, ep3]
  · intro rx hfail
    by_cases c1 : checkOk 0x0800 2 (rx.drop 2) = true
    · by_cases c2 : checkOk 1 2 (rx.drop 6) = true
      · by_cases c3 : checkOk cfg.ip4Addr 4 (rx.drop 24) = true
        · rcases hfail with hf | hf | hf <;> exact absurd (by assumption) hf
        · simp only [arpLayer, List.drop_drop]
          norm_num [c1, c2, c3, noReply]
      · simp only [arpLayer, List.drop_drop]
        norm_num [c1, c2, noReply]
    · simp only [arpLayer, List.drop_drop]
      norm_num [c1, noReply]

/-- Witness for `arp_request_reply` at the `test_rx_arp` vector. -/
theorem arp_request_reply_witness :
    (ethLayer ⟨0x0123456789AB, 0x0A000005, 0, 0⟩
        ([0xFF, 0xFF, 0xFF, 0xFF, 0xFF, 0xFF] ++ [0x00, 0x01, 0x02, 0x03, 0x04, 0x05]
          ++ [0x08, 0x06] ++ [0x00, 0x01] ++ [0x08, 0x00] ++ [0x06, 0x04] ++ [0x00, 0x01]
          ++ [0x00, 0x01, 0x02, 0x03, 0x04, 0x05] ++ [0x0A, 0x00, 0x00, 0x01]
          ++ [0x00, 0x00, 0x00, 0x00, 0x00, 0x00]
          ++ valBytes (0x0A000005 : Nat) 4)).send = true :=
  (arp_request_reply ⟨0x0123456789AB, 0x0A000005, 0, 0⟩
    0xFF 0xFF 0xFF 0xFF 0xFF 0xFF 0x00 0x01 0x02 0x03 0x04 0x05
    0x00 0x01 0x06 0x04 0x00 0x01 0x02 0x03 0x04 0x05
    0x0A 0x00 0x00 0x01 0x00 0x00 0x00 0x00 0x00 0x00 (by decide)).1

/-! ### C4: UDP receive -/

lemma rdByte_drop_one (rx : List Nat) (i : Nat) :
    rdByte (rx.drop 1) i = rdByte rx (i + 1) := by
  cases rx <;> simp [rdByte]

lemma copyOp_eq_map (n : Nat) : ∀ (dst : Nat) (rx : List Nat),
    copyOp dst n rx = (List.range n).map (fun i => (dst + i, rdByte rx i)) := by
  induction n with
  | zero => intro dst rx; simp [copyOp]
  | succ m ih =>
    intro dst rx
    rw [copyOp, ih, List.range_succ_eq_map]
    simp only [List.map_cons, List.map_map, Nat.add_zero, Function.comp]
    congr 1
    apply List.map_congr_left
    intro i _
    rw [rdByte_drop_one]
    have h1 : dst + 1 + i = dst + (i + 1) := by omega
    rw [h1]
    simp [Function.comp, Nat.succ_eq_add_one]

set_option maxHeartbeats 2000000 in
/-- C4 (amended): when the configured payload length is nonzero, a
received UDP datagram with the configured destination port and a
length field equal to the configured payload length plus 8 causes the
engine to copy the payload bytes into the user receive memory at offsets
0.., overwrite the endpoint cache with the sender's source MAC, source IP
and source UDP port, and pulse `user_rx`; no transmission is requested
from this path (`send` stays low, so `tx_start` is never pulsed). -/
theorem udp_receive (cfg : StackConfig)
    (d0 d1 d2 d3 d4 d5 s0 s1 s2 s3 s4 s5 dscp tl1 tl2 i1 i2 f1 f2 tt
      c1 c2 q0 q1 q2 q3 sp1 sp2 u1 u2 : Nat) (ps : List Nat)
    (hb : ∀ x ∈ [s0, s1, s2, s3, s4, s5, q0, q1, q2, q3, sp1, sp2], x < 256)
    (hcfg : 0 < cfg.userUdpLen)
    (hlen : ps.length = cfg.userUdpLen) :
    (ethLayer cfg
        ([d0, d1, d2, d3, d4, d5] ++ [s0, s1, s2, s3, s4, s5] ++ [0x08, 0x00]
          ++ [0x45, dscp] ++ [tl1, tl2] ++ [i1, i2, f1, f2, tt] ++ [0x11]
          ++ [c1, c2] ++ [q0, q1, q2, q3] ++ valBytes cfg.ip4Addr 4
          ++ [sp1, sp2] ++ valBytes cfg.userUdpPort 2
          ++ valBytes (cfg.userUdpLen + 8) 2 ++ [u1, u2] ++ ps)).send = false
    ∧ (ethLayer cfg
        ([d0, d1, d2, d3, d4, d5] ++ [s0, s1, s2, s3, s4, s5] ++ [0x08, 0x00]
          ++ [0x45, dscp] ++ [tl1, tl2] ++ [i1, i2, f1, f2, tt] ++ [0x11]
          ++ [c1, c2] ++ [q0, q1, q2, q3] ++ valBytes cfg.ip4Addr 4
          ++ [sp1, sp2] ++ valBytes cfg.userUdpPort 2
          ++ valBytes (cfg.userUdpLen + 8) 2 ++ [u1, u2] ++ ps)).userRx = true
    ∧ (ethLayer cfg
        ([d0, d1, d2, d3, d4, d5] ++ [s0, s1, s2, s3, s4, s5] ++ [0x08, 0x00]
          ++ [0x45, dscp] ++ [tl1, tl2] ++ [i1, i2, f1, f2, tt] ++ [0x11]
          ++ [c1, c2] ++ [q0, q1, q2, q3] ++ valBytes cfg.ip4Addr 4
          ++ [sp1, sp2] ++ valBytes cfg.userUdpPort 2
          ++ valBytes (cfg.userUdpLen + 8) 2 ++ [u1, u2] ++ ps)).cache
      = some (((((s0 * 256 + s1) * 256 + s2) * 256 + s3) * 256 + s4) * 256 + s5,
          ((q0 * 256 + q1) * 256 + q2) * 256 + q3, sp1 * 256 + sp2)
    ∧ (ethLayer cfg
        ([d0, d1, d2, d3, d4, d5] ++ [s0, s1, s2, s3, s4, s5] ++ [0x08, 0x00]
          ++ [0x45, dscp] ++ [tl1, tl2] ++ [i1, i2, f1, f2, tt] ++ [0x11]
          ++ [c1, c2] ++ [q0, q1, q2, q3] ++ valBytes cfg.ip4Addr 4
          ++ [sp1, sp2] ++ valBytes cfg.userUdpPort 2
          ++ valBytes (cfg.userUdpLen + 8) 2 ++ [u1, u2] ++ ps)).userWrites
      = (List.range cfg.userUdpLen).map (fun i => (i, ps.getD i 0 % 256))
    ∧ (∀ (st : IPStackState) (inp : IPStackIn), st.fsm = StackFsm.PROCESS_RX →
        inp.ethSend = (ethLayer cfg
          ([d0, d1, d2, d3, d4, d5] ++ [s0, s1, s2, s3, s4, s5] ++ [0x08, 0x00]
          ++ [0x45, dscp] ++ [tl1, tl2] ++ [i1, i2, f1, f2, tt] ++ [0x11]
          ++ [c1, c2] ++ [q0, q1, q2, q3] ++ valBytes cfg.ip4Addr 4
          ++ [sp1, sp2] ++ valBytes cfg.userUdpPort 2
          ++ valBytes (cfg.userUdpLen + 8) 2 ++ [u1, u2] ++ ps)).send →
        ipStackTxStart st inp = false) := by
  have e : ∀ x ∈ [s0, s1, s2, s3, s4, s5, q0, q1, q2, q3, sp1, sp2], x % 256 = x :=
    fun x hx => Nat.mod_eq_of_lt (hb x hx)
  have es0 := e s0 (by simp); have es1 := e s1 (by simp); have es2 := e s2 (by simp)
  have es3 := e s3 (by simp); have es4 := e s4 (by simp); have es5 := e s5 (by simp)
  have eq0 := e q0 (by simp); have eq1 := e q1 (by simp); have eq2 := e q2 (by simp)
  have eq3 := e q3 (by simp)
  have esp1 := e sp1 (by simp); have esp2 := e sp2 (by simp)
  have hne : ¬ cfg.userUdpLen = 0 := by omega
  refine ⟨?_, ?_, ?_, ?_, ?_⟩
  · simp [ethLayer, ethFinish, ipv4Layer, ipv4Finish, udpLayer, checkOk, checkRun,
      copyCheckW, copyCheckAux, copyOp, writeOp, valBytes, valByte, extractBE,
      rdByte, shiftW, noReply, mod256_mod256,
      range_one, range_two, range_four, range_six,
      es0, es1, es2, es3, es4, es5, eq0, eq1, eq2, eq3, esp1, esp2, hne]
  · simp [ethLayer, ethFinish, ipv4Layer, ipv4Finish, udpLayer, checkOk, checkRun,
      copyCheckW, copyCheckAux, copyOp, writeOp, valBytes, valByte, extractBE,
      rdByte, shiftW, noReply, mod256_mod256,
      range_one, range_two, range_four, range_six,
      es0, es1, es2, es3, es4, es5, eq0, eq1, eq2, eq3, esp1, esp2, hne]
  · simp [ethLayer, ethFinish, ipv4Layer, ipv4Finish, udpLayer, checkOk, checkRun,
      copyCheckW, copyCheckAux, copyOp, writeOp, valBytes, valByte, extractBE,
      rdByte, shiftW, noReply, mod256_mod256,
      range_one, range_two, range_four, range_six,
      es0, es1, es2, es3, es4, es5, eq0, eq1, eq2, eq3, esp1, esp2, hne]
  · rw [show (ethLayer cfg
        ([d0, d1, d2, d3, d4, d5] ++ [s0, s1, s2, s3, s4, s5] ++ [0x08, 0x00]
          ++ [0x45, dscp] ++ [tl1, tl2] ++ [i1, i2, f1, f2, tt] ++ [0x11]
          ++ [c1, c2] ++ [q0, q1, q2, q3] ++ valBytes cfg.ip4Addr 4
          ++ [sp1, sp2] ++ valBytes cfg.userUdpPort 2
          ++ valBytes (cfg.userUdpLen + 8) 2 ++ [u1, u2] ++ ps)).userWrites
        = copyOp 0 cfg.userUdpLen ps from by
      simp [ethLayer, ethFinish, ipv4Layer, ipv4Finish, udpLayer, checkOk, checkRun,
        copyCheckW, copyCheckAux, copyOp, writeOp, valBytes, valByte, extractBE,
        rdByte, shiftW, noReply, mod256_mod256,
        range_one, range_two, range_four, range_six,
        es0, es1, es2, es3, es4, es5, eq0, eq1, eq2, eq3, esp1, esp2, hne]]
    rw [copyOp_eq_map]
    apply List.map_congr_left
    intro i hi
    simp only [Nat.zero_add, rdByte]
  · intro st inp hst hsend
    rw [show (ethLayer cfg
        ([d0, d1, d2, d3, d4, d5] ++ [s0, s1, s2, s3, s4, s5] ++ [0x08, 0x00]
          ++ [0x45, dscp] ++ [tl1, tl2] ++ [i1, i2, f1, f2, tt] ++ [0x11]
          ++ [c1, c2] ++ [q0, q1, q2, q3] ++ valBytes cfg.ip4Addr 4
          ++ [sp1, sp2] ++ valBytes cfg.userUdpPort 2
          ++ valBytes (cfg.userUdpLen + 8) 2 ++ [u1, u2] ++ ps)).send = false from by
      simp [ethLayer, ethFinish, ipv4Layer, ipv4Finish, udpLayer, checkOk, checkRun,
        copyCheckW, copyCheckAux, copyOp, writeOp, valBytes, valByte, extractBE,
        rdByte, shiftW, noReply, mod256_mod256,
        range_one, range_two, range_four, range_six,
        es0, es1, es2, es3, es4, es5, eq0, eq1, eq2, eq3, esp1, esp2, hne]] at hsend
    obtain ⟨f, ra, rad, txo, er, ur⟩ := st
    simp only at hst
    subst hst
    simp [ipStackTxStart, hsend]

/-- Witness for udp_receive at the test vector from the repository's
test_udp_rx simulation (payload bytes 48..63, source 00:01:02:03:04:05
at 10.0.0.1 port 10000). -/
theorem udp_receive_witness :
    (ethLayer ⟨0x0123456789AB, 0x0A000005, 16, 1735⟩
        ([0x01, 0x23, 0x45, 0x67, 0x89, 0xAB] ++ [0, 1, 2, 3, 4, 5] ++ [0x08, 0x00]
          ++ [0x45, 0] ++ [0, 44] ++ [0, 0, 0, 0, 64] ++ [0x11]
          ++ [0, 0] ++ [10, 0, 0, 1] ++ valBytes 0x0A000005 4
          ++ [0x27, 0x10] ++ valBytes 1735 2
          ++ valBytes (16 + 8) 2 ++ [0, 0]
          ++ [48, 49, 50, 51, 52, 53, 54, 55, 56, 57, 58, 59, 60, 61, 62, 63])).userRx
      = true :=
  (udp_receive ⟨0x0123456789AB, 0x0A000005, 16, 1735⟩
      0x01 0x23 0x45 0x67 0x89 0xAB 0 1 2 3 4 5 0 0 44 0 0 0 0 64 0 0
      10 0 0 1 0x27 0x10 0 0
      [48, 49, 50, 51, 52, 53, 54, 55, 56, 57, 58, 59, 60, 61, 62, 63]
      (by decide) (by decide) (by decide)).2.1

/-! ### C1: ICMP echo — support lemmas -/

lemma xor_bit_decomp (a c i j : Nat) (hi : i < 2) (hj : j < 2) :
    (2 * a + i) ^^^ (2 * c + j) = 2 * (a ^^^ c) + (i ^^^ j) := by
  apply Nat.eq_of_testBit_eq
  intro k
  cases k with
  | zero =>
    simp only [Nat.testBit_zero]
    interval_cases i <;> interval_cases j <;> simp [Nat.add_mul_mod_self_left] <;>
      omega
  | succ k =>
    simp only [Nat.testBit_succ]
    have h1 : (2 * a + i) / 2 = a := by omega
    have h2 : (2 * c + j) / 2 = c := by omega
    have h3 : (2 * (a ^^^ c) + (i ^^^ j)) / 2 = a ^^^ c := by
      have h4 : i ^^^ j < 2 :=
        Nat.xor_lt_two_pow (n := 1) (by omega) (by omega)
      omega
    have hdiv : (2 * a + i ^^^ 2 * c + j) / 2 = (2 * a + i) / 2 ^^^ (2 * c + j) / 2 := by
      have h := xor_shiftRight (2 * a + i) (2 * c + j) 1
      simpa [Nat.shiftRight_one] using h
    rw [hdiv, h1, h2, h3]

lemma compl_xor (n : Nat) : ∀ x, x < 2 ^ n → (2 ^ n - 1) ^^^ x = 2 ^ n - 1 - x := by
  induction n with
  | zero =>
    intro x hx
    interval_cases x
    rfl
  | succ n ih =>
    intro x hx
    have hx2 : x / 2 < 2 ^ n := by omega
    have h1 : 2 ^ (n + 1) - 1 = 2 * (2 ^ n - 1) + 1 := by
      have : 1 ≤ 2 ^ n := Nat.one_le_two_pow
      omega
    have h2 : x = 2 * (x / 2) + x % 2 := by omega
    rw [h1]
    conv_lhs => rw [h2]
    rw [xor_bit_decomp _ _ _ _ (by omega) (by omega), ih _ hx2]
    have h3 : 1 ^^^ x % 2 = 1 - x % 2 := by
      rcases Nat.mod_two_eq_zero_or_one x with h | h <;> rw [h] <;> rfl
    rw [h3]
    have : 1 ≤ 2 ^ n := Nat.one_le_two_pow
    omega

lemma compl16 (x : Nat) (hx : x < 65536) : 65535 ^^^ x = 65535 - x := by
  have h := compl_xor 16 x (by norm_num; omega)
  norm_num at h
  exact h

lemma icOut_lt (s : Nat) : icOut s < 65536 := by
  have h1 : (65535 : Nat) < 2 ^ 16 := by norm_num
  have h2 : s % 65536 < 2 ^ 16 := by
    have h4 : (2 : Nat) ^ 16 = 65536 := by norm_num
    omega
  have h3 := Nat.xor_lt_two_pow h1 h2
  norm_num at h3
  simpa [icOut] using h3

lemma icOut_eq_sub (s : Nat) : icOut s = 65535 - s % 65536 := by
  rw [icOut, compl16 _ (by omega)]

lemma canonRep_le_self (S : Nat) : canonRep S ≤ S := by
  unfold canonRep
  split_ifs with h <;> omega

lemma words16_le (bs : List Nat) : ∀ w ∈ words16 bs, w ≤ 65535 := by
  induction bs using words16.induct with
  | case1 => simp [words16]
  | case2 a =>
    simp [words16]
    omega
  | case3 a b t ih =>
    intro w hw
    rw [words16] at hw
    rcases List.mem_cons.mp hw with h | h
    · omega
    · exact ih w h

lemma icOfWrites_append (w1 w2 : List (Nat × Nat)) :
    icOfWrites (w1 ++ w2) = icOfWrites w1 ++ icOfWrites w2 := by
  simp [icOfWrites]

lemma contribSum_append (d1 d2 : List (Nat × Bool)) :
    contribSum (d1 ++ d2) = contribSum d1 + contribSum d2 := by
  simp [contribSum]

/-- Shifting write addresses by an even offset leaves the checksum
contributions unchanged (the low address bit is preserved). -/
lemma contribSum_shiftW_even (k : Nat) (hk : k % 2 = 0) (ws : List (Nat × Nat)) :
    contribSum (icOfWrites (shiftW k ws)) = contribSum (icOfWrites ws) := by
  induction ws with
  | nil => rfl
  | cons p t ih =>
    simp only [shiftW, List.map_cons, icOfWrites, contribSum, List.map_cons,
      List.sum_cons] at ih ⊢
    have hpar : (p.1 + k) % 2 = p.1 % 2 := by omega
    have : contrib (p.2, (p.1 + k) % 2 = 1) = contrib (p.2, p.1 % 2 = 1) := by
      simp [contrib, hpar]
    rw [this]
    omega

/-- The two big-endian bytes of a 16-bit value written at an even address
contribute exactly that value to the checksum. -/
lemma contrib_high (x : Nat) : contrib (x, false) = x % 256 * 256 := rfl

lemma contrib_low (x : Nat) : contrib (x, true) = x % 256 := rfl

lemma contribSum_writeOp_two (v dst : Nat) (hv : v < 65536) (hd : dst % 2 = 0) :
    contribSum (icOfWrites (writeOp v dst 2)) = v := by
  have h2 : (dst + 1) % 2 = 1 := by omega
  simp [writeOp, range_two, icOfWrites, contribSum, contrib, valByte,
    Nat.shiftRight_eq_div_pow, hd, h2]
  omega

/-- Checksum contributions of the payload copy: starting at an even
address, the per-byte contributions sum to the sum of the payload's
big-endian 16-bit words. -/
lemma payload_contrib : ∀ (ps : List Nat) (d : Nat), d % 2 = 0 →
    contribSum (icOfWrites (copyOp d ps.length ps)) = (words16 ps).sum
  | [], d, hd => by simp [copyOp, icOfWrites, contribSum, words16]
  | [a], d, hd => by
    simp [copyOp, icOfWrites, contribSum, words16, contrib, rdByte, hd]
  | a :: b :: t, d, hd => by
    have ih := payload_contrib t (d + 2) (by omega)
    have hd1 : (d + 1) % 2 = 1 := by omega
    have h1 : (a :: b :: t).length = t.length + 2 := by simp
    rw [h1]
    rw [show copyOp d (t.length + 2) (a :: b :: t)
        = (d, rdByte (a :: b :: t) 0) :: (d + 1, rdByte (b :: t) 0)
            :: copyOp (d + 2) t.length t from rfl]
    rw [words16]
    simp only [icOfWrites, List.map_cons, contribSum, List.sum_cons] at ih ⊢
    have hc1 : contrib (rdByte (a :: b :: t) 0, decide (d % 2 = 1))
        = a % 256 * 256 := by
      simp [contrib, hd, rdByte, mod256_mod256]
    have hc2 : contrib (rdByte (b :: t) 0, decide ((d + 1) % 2 = 1))
        = b % 256 := by
      simp [contrib, hd1, rdByte, mod256_mod256]
    rw [hc1, hc2]
    omega

lemma map_getD_range : ∀ (l : List Nat),
    (List.range l.length).map (fun j => l.getD j 0) = l
  | [] => rfl
  | a :: t => by
    rw [List.length_cons, List.range_succ_eq_map, List.map_cons, List.map_map]
    simp only [List.getD_cons_zero]
    congr 1
    conv_rhs => rw [← map_getD_range t]
    apply List.map_congr_left
    intro j _
    simp [Function.comp]


lemma shiftW_append (k : Nat) (w1 w2 : List (Nat × Nat)) :
    shiftW k (w1 ++ w2) = shiftW k w1 ++ shiftW k w2 := by
  simp [shiftW]

lemma shiftW_copyOp (k : Nat) : ∀ (n dst : Nat) (rx : List Nat),
    shiftW k (copyOp dst n rx) = copyOp (dst + k) n rx := by
  intro n
  induction n with
  | zero => intro dst rx; simp [copyOp, shiftW]
  | succ m ih =>
    intro dst rx
    simp only [copyOp, shiftW, List.map_cons]
    congr 1
    have h := ih (dst + 1) (rx.drop 1)
    simp only [shiftW] at h
    rw [show dst + k + 1 = dst + 1 + k from by omega]
    exact h

lemma shiftW_writeOp (k v dst n : Nat) :
    shiftW k (writeOp v dst n) = writeOp v (dst + k) n := by
  simp only [shiftW, writeOp, List.map_map]
  apply List.map_congr_left
  intro i _
  simp [Function.comp]
  omega

/-- Evaluating the last-write-wins fold over a block of copy writes. -/
lemma foldl_copyOp_render (a : Nat) : ∀ (n dst : Nat) (rx : List Nat) (d : Nat),
    List.foldl (fun acc p => if p.1 = a then p.2 else acc) d (copyOp dst n rx)
      = if dst ≤ a ∧ a < dst + n then rdByte rx (a - dst) else d := by
  intro n
  induction n with
  | zero =>
    intro dst rx d
    simp only [copyOp, List.foldl_nil]
    rw [if_neg (by omega)]
  | succ m ih =>
    intro dst rx d
    simp only [copyOp, List.foldl_cons]
    rw [ih (dst + 1) (rx.drop 1)]
    by_cases hm : dst + 1 ≤ a ∧ a < dst + 1 + m
    · rw [if_pos hm, if_pos (by omega), rdByte_drop_one]
      congr 1
      omega
    · rw [if_neg hm]
      by_cases hda : dst = a
      · rw [if_pos hda, if_pos (by omega), show a - dst = 0 from by omega]
      · rw [if_neg hda, if_neg (by omega)]

lemma renderByte_append (w1 w2 : List (Nat × Nat)) (d a : Nat) :
    renderByte (w1 ++ w2) d a = renderByte w2 (renderByte w1 d a) a := by
  simp [renderByte, List.foldl_append]

/-- A write block whose addresses all lie below `m` leaves positions at or
above `m` untouched. -/
lemma renderByte_bounded (ws : List (Nat × Nat)) (d a m : Nat) (ha : m ≤ a) :
    ws.all (fun p => decide (p.1 < m)) = true → renderByte ws d a = d := by
  induction ws generalizing d with
  | nil => intro _; rfl
  | cons p t ih =>
    intro hm
    simp only [List.all_cons, Bool.and_eq_true, decide_eq_true_eq] at hm
    simp only [renderByte, List.foldl_cons]
    rw [if_neg (by omega)]
    exact ih d hm.2

lemma extractBE_cons_two (x y : Nat) (rest : List Nat) :
    extractBE (x :: y :: rest) 2 = x % 256 * 256 + y % 256 := by
  simp [extractBE, List.range_succ, rdByte]

lemma valByte_two_sum (v : Nat) (hv : v < 65536) :
    valByte v 2 0 * 256 + valByte v 2 1 = v := by
  rw [valByte_eq_div, valByte_eq_div]
  norm_num
  omega

lemma getD_lt_256 (ps : List Nat) (hps : ∀ x ∈ ps, x < 256) (i : Nat) :
    ps.getD i 0 < 256 := by
  by_cases h : i < ps.length
  · rw [List.getD_eq_getElem ps 0 h]
    exact hps _ (List.getElem_mem h)
  · rw [List.getD_eq_default ps 0 (by omega)]
    norm_num

lemma shiftW_nil (k : Nat) : shiftW k [] = [] := rfl

lemma shiftW_cons (k : Nat) (p : Nat × Nat) (t : List (Nat × Nat)) :
    shiftW k (p :: t) = (p.1 + k, p.2) :: shiftW k t := rfl

/-- The ICMPv4 layer on an echo request: writes the mirrored identifier,
sequence and payload, the type/code of an echo reply, and its checksum,
and requests a send of `total_length - 20` bytes. -/
lemma icmpLayer_echo (k1 k2 m1 m2 n1 n2 : Nat) (ps : List Nat)
    (em1 : m1 % 256 = m1) (em2 : m2 % 256 = m2)
    (en1 : n1 % 256 = n1) (en2 : n2 % 256 = n2)
    (hpos : 0 < ps.length) (hL : ps.length + 42 < 2048) :
    icmpLayer (28 + ps.length) (8 :: 0 :: k1 :: k2 :: m1 :: m2 :: n1 :: n2 :: ps)
      = ⟨(4, m1) :: (5, m2) :: (6, n1) :: (7, n2) ::
          (copyOp 8 ps.length ps ++ [(0, 0), (1, 0),
            (2, icOut (icFeed 0 (icOfWrites ((4, m1) :: (5, m2) :: (6, n1) :: (7, n2)
              :: (copyOp 8 ps.length ps ++ [(0, 0), (1, 0)])))) >>> 8 % 256),
            (3, icOut (icFeed 0 (icOfWrites ((4, m1) :: (5, m2) :: (6, n1) :: (7, n2)
              :: (copyOp 8 ps.length ps ++ [(0, 0), (1, 0)])))) % 256)]),
        true, 8 + ps.length, false, [], none, false⟩ := by
  have hpn : (28 + ps.length + 2020) % 2048 = ps.length := by omega
  have htx : (28 + ps.length + 2028) % 2048 = 8 + ps.length := by omega
  have hne : ¬ ps.length = 0 := by omega
  simp [icmpLayer, checkOk, checkRun, copyOp, writeOp, valBytes, valByte,
    rdByte, mod256_mod256, range_one, range_two, hpn, htx, em1, em2, en1, en2,
    hne]


/-- The IPv4 layer on an ICMP echo request addressed to the configured
address: the echo reply of the ICMP sublayer is mirrored at offset 20 and
wrapped in a reply IPv4 header whose checksum is taken from the shared
accumulator fed by every header write. -/
lemma ipv4Layer_echo (cfg : StackConfig) (srcMac : Nat)
    (dscp i1 i2 f1 f2 tt c1 c2 q0 q1 q2 q3 k1 k2 m1 m2 n1 n2 : Nat) (ps : List Nat)
    (eq0 : q0 % 256 = q0) (eq1 : q1 % 256 = q1) (eq2 : q2 % 256 = q2)
    (eq3 : q3 % 256 = q3)
    (em1 : m1 % 256 = m1) (em2 : m2 % 256 = m2)
    (en1 : n1 % 256 = n1) (en2 : n2 % 256 = n2)
    (hpos : 0 < ps.length) (hlen : ps.length + 42 < 2048) :
    ipv4Layer cfg srcMac
      (69 :: dscp :: (28 + ps.length) >>> 8 % 256 :: (28 + ps.length) % 256
        :: i1 :: i2 :: f1 :: f2 :: tt :: 1 :: c1 :: c2 :: q0 :: q1 :: q2 :: q3
        :: cfg.ip4Addr >>> 24 % 256 :: cfg.ip4Addr >>> 16 % 256
        :: cfg.ip4Addr >>> 8 % 256 :: cfg.ip4Addr % 256
        :: 8 :: 0 :: k1 :: k2 :: m1 :: m2 :: n1 :: n2 :: ps)
      = ⟨(0, 69) :: (9, 1) :: (16, q0) :: (17, q1) :: (18, q2) :: (19, q3) ::
          (12, cfg.ip4Addr >>> 24 % 256) :: (13, cfg.ip4Addr >>> 16 % 256) ::
          (14, cfg.ip4Addr >>> 8 % 256) :: (15, cfg.ip4Addr % 256) ::
          (24, m1) :: (25, m2) :: (26, n1) :: (27, n2) ::
          (copyOp 28 ps.length ps ++
            [(20, 0), (21, 0),
             (22, icOut (icFeed 0 (icOfWrites ((4, m1) :: (5, m2) :: (6, n1) :: (7, n2)
               :: (copyOp 8 ps.length ps ++ [(0, 0), (1, 0)])))) >>> 8 % 256),
             (23, icOut (icFeed 0 (icOfWrites ((4, m1) :: (5, m2) :: (6, n1) :: (7, n2)
               :: (copyOp 8 ps.length ps ++ [(0, 0), (1, 0)])))) % 256),
             (1, 0), (2, (28 + ps.length) >>> 8 % 256), (3, (28 + ps.length) % 256),
             (8, 64), (4, 0), (5, 0), (6, 0), (7, 0),
             (10, icOut (icFeed 0 (icOfWrites
               ((0, 69) :: (9, 1) :: (16, q0) :: (17, q1) :: (18, q2) :: (19, q3) ::
                (12, cfg.ip4Addr >>> 24 % 256) :: (13, cfg.ip4Addr >>> 16 % 256) ::
                (14, cfg.ip4Addr >>> 8 % 256) :: (15, cfg.ip4Addr % 256) ::
                (24, m1) :: (25, m2) :: (26, n1) :: (27, n2) ::
                (copyOp 28 ps.length ps ++
                  [(20, 0), (21, 0),
                   (22, icOut (icFeed 0 (icOfWrites ((4, m1) :: (5, m2) :: (6, n1) :: (7, n2)
                     :: (copyOp 8 ps.length ps ++ [(0, 0), (1, 0)])))) >>> 8 % 256),
                   (23, icOut (icFeed 0 (icOfWrites ((4, m1) :: (5, m2) :: (6, n1) :: (7, n2)
                     :: (copyOp 8 ps.length ps ++ [(0, 0), (1, 0)])))) % 256),
                   (1, 0), (2, (28 + ps.length) >>> 8 % 256), (3, (28 + ps.length) % 256),
                   (8, 64), (4, 0), (5, 0), (6, 0), (7, 0)])))) >>> 8 % 256),
             (11, icOut (icFeed 0 (icOfWrites
               ((0, 69) :: (9, 1) :: (16, q0) :: (17, q1) :: (18, q2) :: (19, q3) ::
                (12, cfg.ip4Addr >>> 24 % 256) :: (13, cfg.ip4Addr >>> 16 % 256) ::
                (14, cfg.ip4Addr >>> 8 % 256) :: (15, cfg.ip4Addr % 256) ::
                (24, m1) :: (25, m2) :: (26, n1) :: (27, n2) ::
                (copyOp 28 ps.length ps ++
                  [(20, 0), (21, 0),
                   (22, icOut (icFeed 0 (icOfWrites ((4, m1) :: (5, m2) :: (6, n1) :: (7, n2)
                     :: (copyOp 8 ps.length ps ++ [(0, 0), (1, 0)])))) >>> 8 % 256),
                   (23, icOut (icFeed 0 (icOfWrites ((4, m1) :: (5, m2) :: (6, n1) :: (7, n2)
                     :: (copyOp 8 ps.length ps ++ [(0, 0), (1, 0)])))) % 256),
                   (1, 0), (2, (28 + ps.length) >>> 8 % 256), (3, (28 + ps.length) % 256),
                   (8, 64), (4, 0), (5, 0), (6, 0), (7, 0)])))) % 256)]),
        true, 28 + ps.length, false, [], none, false⟩ := by
  have hTL : (28 + ps.length) >>> 8 % 256 * 256 + (28 + ps.length) % 256
      = 28 + ps.length := by
    rw [Nat.shiftRight_eq_div_pow]
    omega
  have hq2 : (20 + (8 + ps.length)) % 2048 = 28 + ps.length := by omega
  have harr : 8 + ps.length + 20 = 28 + ps.length := by omega
  have hA := icmpLayer_echo k1 k2 m1 m2 n1 n2 ps em1 em2 en1 en2 hpos hlen
  simp [ipv4Layer, ipv4Finish, checkOk, checkRun, copyOp, writeOp,
    copyCheckW, copyCheckAux, valBytes,
    valByte, extractBE, rdByte, shiftW_append, shiftW_copyOp, shiftW_writeOp,
    shiftW_cons, shiftW_nil, mod256_mod256, range_one, range_two, range_four,
    eq0, eq1, eq2, eq3, em1, em2, en1, en2, hTL, hq2, harr, hA]


set_option maxHeartbeats 1000000 in
/-- The Ethernet layer on a full ICMP echo request frame: the reply is the
requester's source as destination, the engine's MAC as source, and the
IPv4 echo reply of the sublayers at offset 14. -/
lemma ethLayer_echo (cfg : StackConfig)
    (d0 d1 d2 d3 d4 d5 s0 s1 s2 s3 s4 s5 dscp i1 i2 f1 f2 tt c1 c2
      q0 q1 q2 q3 k1 k2 m1 m2 n1 n2 : Nat) (ps : List Nat)
    (es0 : s0 % 256 = s0) (es1 : s1 % 256 = s1) (es2 : s2 % 256 = s2)
    (es3 : s3 % 256 = s3) (es4 : s4 % 256 = s4) (es5 : s5 % 256 = s5)
    (eq0 : q0 % 256 = q0) (eq1 : q1 % 256 = q1) (eq2 : q2 % 256 = q2)
    (eq3 : q3 % 256 = q3)
    (em1 : m1 % 256 = m1) (em2 : m2 % 256 = m2)
    (en1 : n1 % 256 = n1) (en2 : n2 % 256 = n2)
    (hpos : 0 < ps.length) (hlen : ps.length + 42 < 2048) :
    ethLayer cfg
      ([d0, d1, d2, d3, d4, d5] ++ [s0, s1, s2, s3, s4, s5] ++ [0x08, 0x00]
        ++ [0x45, dscp] ++ valBytes (28 + ps.length) 2 ++ [i1, i2, f1, f2, tt]
        ++ [0x01] ++ [c1, c2] ++ [q0, q1, q2, q3] ++ valBytes cfg.ip4Addr 4
        ++ [0x08, 0x00] ++ [k1, k2] ++ [m1, m2] ++ [n1, n2] ++ ps)
      = ⟨(0, s0) :: (1, s1) :: (2, s2) :: (3, s3) :: (4, s4) :: (5, s5) ::
          (12, 8) :: (13, 0) ::
          (14, 69) :: (23, 1) :: (30, q0) :: (31, q1) :: (32, q2) :: (33, q3) ::
          (26, cfg.ip4Addr >>> 24 % 256) :: (27, cfg.ip4Addr >>> 16 % 256) ::
          (28, cfg.ip4Addr >>> 8 % 256) :: (29, cfg.ip4Addr % 256) ::
          (38, m1) :: (39, m2) :: (40, n1) :: (41, n2) ::
          (copyOp 42 ps.length ps ++
            [(34, 0), (35, 0),
             (36, icOut (icFeed 0 (icOfWrites ((4, m1) :: (5, m2) :: (6, n1) :: (7, n2)
               :: (copyOp 8 ps.length ps ++ [(0, 0), (1, 0)])))) >>> 8 % 256),
             (37, icOut (icFeed 0 (icOfWrites ((4, m1) :: (5, m2) :: (6, n1) :: (7, n2)
               :: (copyOp 8 ps.length ps ++ [(0, 0), (1, 0)])))) % 256),
             (15, 0), (16, (28 + ps.length) >>> 8 % 256), (17, (28 + ps.length) % 256),
             (22, 64), (18, 0), (19, 0), (20, 0), (21, 0),
             (24, icOut (icFeed 0 (icOfWrites ((0, 69) :: (9, 1) :: (16, q0) :: (17, q1) :: (18, q2) :: (19, q3) ::
                (12, cfg.ip4Addr >>> 24 % 256) :: (13, cfg.ip4Addr >>> 16 % 256) ::
                (14, cfg.ip4Addr >>> 8 % 256) :: (15, cfg.ip4Addr % 256) ::
                (24, m1) :: (25, m2) :: (26, n1) :: (27, n2) ::
                (copyOp 28 ps.length ps ++
                  [(20, 0), (21, 0),
                   (22, icOut (icFeed 0 (icOfWrites ((4, m1) :: (5, m2) :: (6, n1) :: (7, n2)
               :: (copyOp 8 ps.length ps ++ [(0, 0), (1, 0)])))) >>> 8 % 256),
                   (23, icOut (icFeed 0 (icOfWrites ((4, m1) :: (5, m2) :: (6, n1) :: (7, n2)
               :: (copyOp 8 ps.length ps ++ [(0, 0), (1, 0)])))) % 256),
                   (1, 0), (2, (28 + ps.length) >>> 8 % 256), (3, (28 + ps.length) % 256),
                   (8, 64), (4, 0), (5, 0), (6, 0), (7, 0)])))) >>> 8 % 256),
             (25, icOut (icFeed 0 (icOfWrites ((0, 69) :: (9, 1) :: (16, q0) :: (17, q1) :: (18, q2) :: (19, q3) ::
                (12, cfg.ip4Addr >>> 24 % 256) :: (13, cfg.ip4Addr >>> 16 % 256) ::
                (14, cfg.ip4Addr >>> 8 % 256) :: (15, cfg.ip4Addr % 256) ::
                (24, m1) :: (25, m2) :: (26, n1) :: (27, n2) ::
                (copyOp 28 ps.length ps ++
                  [(20, 0), (21, 0),
                   (22, icOut (icFeed 0 (icOfWrites ((4, m1) :: (5, m2) :: (6, n1) :: (7, n2)
               :: (copyOp 8 ps.length ps ++ [(0, 0), (1, 0)])))) >>> 8 % 256),
                   (23, icOut (icFeed 0 (icOfWrites ((4, m1) :: (5, m2) :: (6, n1) :: (7, n2)
               :: (copyOp 8 ps.length ps ++ [(0, 0), (1, 0)])))) % 256),
                   (1, 0), (2, (28 + ps.length) >>> 8 % 256), (3, (28 + ps.length) % 256),
                   (8, 64), (4, 0), (5, 0), (6, 0), (7, 0)])))) % 256),
             (6, cfg.macAddr >>> 40 % 256), (7, cfg.macAddr >>> 32 % 256),
             (8, cfg.macAddr >>> 24 % 256), (9, cfg.macAddr >>> 16 % 256),
             (10, cfg.macAddr >>> 8 % 256), (11, cfg.macAddr % 256)]),
        true, 42 + ps.length, false, [], none, false⟩ := by
  have hq3 : (14 + (28 + ps.length)) % 2048 = 42 + ps.length := by omega
  have hB := ipv4Layer_echo cfg
    (((((s0 * 256 + s1) * 256 + s2) * 256 + s3) * 256 + s4) * 256 + s5)
    dscp i1 i2 f1 f2 tt c1 c2 q0 q1 q2 q3 k1 k2 m1 m2 n1 n2 ps
    eq0 eq1 eq2 eq3 em1 em2 en1 en2 hpos hlen
  simp only [valBytes, range_two, range_four, List.map_cons, List.map_nil, valByte]
  norm_num
  simp [ethLayer, ethFinish, copyOp, writeOp, extractBE, rdByte, valByte,
    shiftW_append, shiftW_copyOp, shiftW_writeOp, shiftW_cons, shiftW_nil,
    mod256_mod256, range_two, range_six,
    es0, es1, es2, es3, es4, es5, hq3, hB]


lemma split16 (x : Nat) (hx : x < 65536) :
    x >>> 8 % 256 * 256 + x % 256 = x := by
  rw [Nat.shiftRight_eq_div_pow]
  norm_num
  omega

/-- The checksum the ICMP sublayer writes equals the RFC 1071 checksum of
the reply's ICMP block with a zeroed checksum field. -/
lemma icmp_echo_checksum (m1 m2 n1 n2 : Nat) (ps : List Nat) :
    icOut (icFeed 0 (icOfWrites ((4, m1) :: (5, m2) :: (6, n1) :: (7, n2)
        :: (copyOp 8 ps.length ps ++ [(0, 0), (1, 0)]))))
      = rfc1071 ([0, 0, 0, 0, m1, m2, n1, n2] ++ ps) := by
  have hsplit : ((4, m1) :: (5, m2) :: (6, n1) :: (7, n2)
        :: (copyOp 8 ps.length ps ++ [(0, 0), (1, 0)]) : List (Nat × Nat))
      = ([(4, m1), (5, m2), (6, n1), (7, n2)] ++ copyOp 8 ps.length ps)
        ++ [((0 : Nat), (0 : Nat)), ((1 : Nat), (0 : Nat))] := by simp
  rw [hsplit, icOut, icOfWrites_append]
  have h01 : icOfWrites [((0 : Nat), (0 : Nat)), ((1 : Nat), (0 : Nat))]
      = [(0, false), (0, true)] := rfl
  rw [h01, icFeed_canon _ (0, false) (0, true) (by decide) (by decide)]
  have hsum : contribSum (icOfWrites
        ([(4, m1), (5, m2), (6, n1), (7, n2)] ++ copyOp 8 ps.length ps))
      = m1 % 256 * 256 + m2 % 256 + (n1 % 256 * 256 + n2 % 256)
        + (words16 ps).sum := by
    rw [icOfWrites_append, contribSum_append, payload_contrib ps 8 (by omega)]
    simp [icOfWrites, contribSum, contrib]
    ring
  rw [hsum, rfc1071]
  have hw : words16 ([0, 0, 0, 0, m1, m2, n1, n2] ++ ps)
      = 0 :: 0 :: (m1 % 256 * 256 + m2 % 256) :: (n1 % 256 * 256 + n2 % 256)
        :: words16 ps := by
    simp [words16]
  rw [hw, rfcSum_canon]
  · congr 2
    simp only [List.sum_cons]
    omega
  · intro w hmem
    simp only [List.mem_cons] at hmem
    rcases hmem with rfl | rfl | rfl | rfl | hmem
    · omega
    · omega
    · omega
    · omega
    · exact words16_le ps w hmem


/-- The low 16 accumulator bits after the ICMP block's writes and the two
zero-valued type/code writes. -/
lemma icmp_accum_canon (m1 m2 n1 n2 : Nat) (ps : List Nat) :
    icFeed 0 (icOfWrites
        (([(4, m1), (5, m2), (6, n1), (7, n2)] ++ copyOp 8 ps.length ps)
          ++ [((0 : Nat), (0 : Nat)), ((1 : Nat), (0 : Nat))])) % 65536
      = canonRep (contribSum (icOfWrites
        ([(4, m1), (5, m2), (6, n1), (7, n2)] ++ copyOp 8 ps.length ps))) := by
  rw [icOfWrites_append,
    show icOfWrites [((0 : Nat), (0 : Nat)), ((1 : Nat), (0 : Nat))]
      = [(0, false), (0, true)] from rfl]
  exact icFeed_canon _ (0, false) (0, true) (by decide) (by decide)

/-- The ICMP checksum value as a ones'-complement: 65535 minus the
canonical representative of the block's contribution sum. -/
lemma icmp_ck_value (m1 m2 n1 n2 : Nat) (ps : List Nat) :
    icOut (icFeed 0 (icOfWrites ((4, m1) :: (5, m2) :: (6, n1) :: (7, n2)
        :: (copyOp 8 ps.length ps ++ [(0, 0), (1, 0)]))))
      = 65535 - canonRep (contribSum (icOfWrites
        ([(4, m1), (5, m2), (6, n1), (7, n2)] ++ copyOp 8 ps.length ps))) := by
  rw [show ((4, m1) :: (5, m2) :: (6, n1) :: (7, n2)
        :: (copyOp 8 ps.length ps ++ [(0, 0), (1, 0)]) : List (Nat × Nat))
      = ([(4, m1), (5, m2), (6, n1), (7, n2)] ++ copyOp 8 ps.length ps)
        ++ [((0 : Nat), (0 : Nat)), ((1 : Nat), (0 : Nat))] from by simp,
    icOut, icmp_accum_canon]
  exact compl16 _ (by have h := canonRep_le (contribSum (icOfWrites
        ([(4, m1), (5, m2), (6, n1), (7, n2)] ++ copyOp 8 ps.length ps))); omega)

/-- The ICMP block's contribution sum in terms of the identifier, sequence
and payload words. -/
lemma icmp_block_sum (m1 m2 n1 n2 : Nat) (ps : List Nat) :
    contribSum (icOfWrites
        ([(4, m1), (5, m2), (6, n1), (7, n2)] ++ copyOp 8 ps.length ps))
      = m1 % 256 * 256 + m2 % 256 + (n1 % 256 * 256 + n2 % 256)
        + (words16 ps).sum := by
  rw [icOfWrites_append, contribSum_append, payload_contrib ps 8 (by omega)]
  simp [icOfWrites, contribSum, contrib]
  ring

/-- Contribution sum of every IPv4-layer accumulator write before the
trailing two zero writes, with the embedded ICMP checksum value `x`. -/
lemma ipv4_accum_sum (cfg : StackConfig) (q0 q1 q2 q3 m1 m2 n1 n2 x : Nat)
    (ps : List Nat) :
    contribSum (icOfWrites
        ([(0, 69), (9, 1), (16, q0), (17, q1), (18, q2), (19, q3),
          (12, cfg.ip4Addr >>> 24 % 256), (13, cfg.ip4Addr >>> 16 % 256),
          (14, cfg.ip4Addr >>> 8 % 256), (15, cfg.ip4Addr % 256),
          (24, m1), (25, m2), (26, n1), (27, n2)]
         ++ (copyOp 28 ps.length ps ++
          [(20, 0), (21, 0),
           (22, x >>> 8 % 256), (23, x % 256),
           (1, 0), (2, (28 + ps.length) >>> 8 % 256), (3, (28 + ps.length) % 256),
           (8, 64), (4, 0), (5, 0)])))
      = 17664 + 1
        + (q0 % 256 * 256 + q1 % 256 + q2 % 256 * 256 + q3 % 256)
        + (cfg.ip4Addr >>> 24 % 256 * 256 + cfg.ip4Addr >>> 16 % 256
           + cfg.ip4Addr >>> 8 % 256 * 256 + cfg.ip4Addr % 256)
        + (m1 % 256 * 256 + m2 % 256 + n1 % 256 * 256 + n2 % 256)
        + (words16 ps).sum
        + (x >>> 8 % 256 * 256 + x % 256)
        + ((28 + ps.length) >>> 8 % 256 * 256 + (28 + ps.length) % 256)
        + 16384 := by
  rw [icOfWrites_append, contribSum_append, icOfWrites_append, contribSum_append,
    payload_contrib ps 28 (by omega)]
  simp [icOfWrites, contribSum, contrib, mod256_mod256]
  omega

/-- The 16-bit words of the reply's zeroed IPv4 header. -/
lemma ipv4_zeroed_words (cfg : StackConfig) (q0 q1 q2 q3 : Nat) (ps : List Nat) :
    words16 ([0x45, 0] ++ valBytes (28 + ps.length) 2
        ++ [0, 0, 0, 0, 64, 1, 0, 0] ++ valBytes cfg.ip4Addr 4
        ++ [q0, q1, q2, q3])
      = [17664,
         (28 + ps.length) >>> 8 % 256 * 256 + (28 + ps.length) % 256,
         0, 0, 16385, 0,
         cfg.ip4Addr >>> 24 % 256 * 256 + cfg.ip4Addr >>> 16 % 256,
         cfg.ip4Addr >>> 8 % 256 * 256 + cfg.ip4Addr % 256,
         q0 % 256 * 256 + q1 % 256, q2 % 256 * 256 + q3 % 256] := by
  simp [words16, valBytes, valByte, range_two, range_four, mod256_mod256]

/-- The checksum the IPv4 layer writes equals the RFC 1071 checksum of the
reply's IPv4 header with a zeroed checksum field: the ICMP sublayer's
writes pass through the same accumulator, but the ICMP block together with
its own checksum contributes a multiple of 65535, which the end-around
arithmetic discards. -/
lemma ipv4_echo_checksum (cfg : StackConfig) (q0 q1 q2 q3 m1 m2 n1 n2 : Nat)
    (ps : List Nat) (hlen : ps.length + 42 < 2048) :
    icOut (icFeed 0 (icOfWrites
      ((0, 69) :: (9, 1) :: (16, q0) :: (17, q1) :: (18, q2) :: (19, q3) ::
       (12, cfg.ip4Addr >>> 24 % 256) :: (13, cfg.ip4Addr >>> 16 % 256) ::
       (14, cfg.ip4Addr >>> 8 % 256) :: (15, cfg.ip4Addr % 256) ::
       (24, m1) :: (25, m2) :: (26, n1) :: (27, n2) ::
       (copyOp 28 ps.length ps ++
         [(20, 0), (21, 0),
          (22, icOut (icFeed 0 (icOfWrites ((4, m1) :: (5, m2) :: (6, n1) :: (7, n2)
        :: (copyOp 8 ps.length ps ++ [(0, 0), (1, 0)])))) >>> 8 % 256),
          (23, icOut (icFeed 0 (icOfWrites ((4, m1) :: (5, m2) :: (6, n1) :: (7, n2)
        :: (copyOp 8 ps.length ps ++ [(0, 0), (1, 0)])))) % 256),
          (1, 0), (2, (28 + ps.length) >>> 8 % 256), (3, (28 + ps.length) % 256),
          (8, 64), (4, 0), (5, 0), (6, 0), (7, 0)]))))
      = rfc1071 ([0x45, 0] ++ valBytes (28 + ps.length) 2
          ++ [0, 0, 0, 0, 64, 1, 0, 0] ++ valBytes cfg.ip4Addr 4
          ++ [q0, q1, q2, q3]) := by
  rw [icmp_ck_value]
  rw [show ((0, 69) :: (9, 1) :: (16, q0) :: (17, q1) :: (18, q2) :: (19, q3) ::
       (12, cfg.ip4Addr >>> 24 % 256) :: (13, cfg.ip4Addr >>> 16 % 256) ::
       (14, cfg.ip4Addr >>> 8 % 256) :: (15, cfg.ip4Addr % 256) ::
       (24, m1) :: (25, m2) :: (26, n1) :: (27, n2) ::
       (copyOp 28 ps.length ps ++
         [(20, 0), (21, 0),
          (22, (65535 - canonRep (contribSum (icOfWrites
        ([(4, m1), (5, m2), (6, n1), (7, n2)] ++ copyOp 8 ps.length ps)))) >>> 8 % 256),
          (23, (65535 - canonRep (contribSum (icOfWrites
        ([(4, m1), (5, m2), (6, n1), (7, n2)] ++ copyOp 8 ps.length ps)))) % 256),
          (1, 0), (2, (28 + ps.length) >>> 8 % 256), (3, (28 + ps.length) % 256),
          (8, 64), (4, 0), (5, 0), (6, 0), (7, 0)]) : List (Nat × Nat))
      = ([(0, 69), (9, 1), (16, q0), (17, q1), (18, q2), (19, q3),
          (12, cfg.ip4Addr >>> 24 % 256), (13, cfg.ip4Addr >>> 16 % 256),
          (14, cfg.ip4Addr >>> 8 % 256), (15, cfg.ip4Addr % 256),
          (24, m1), (25, m2), (26, n1), (27, n2)]
         ++ (copyOp 28 ps.length ps ++
          [(20, 0), (21, 0),
           (22, (65535 - canonRep (contribSum (icOfWrites
        ([(4, m1), (5, m2), (6, n1), (7, n2)] ++ copyOp 8 ps.length ps)))) >>> 8 % 256),
           (23, (65535 - canonRep (contribSum (icOfWrites
        ([(4, m1), (5, m2), (6, n1), (7, n2)] ++ copyOp 8 ps.length ps)))) % 256),
           (1, 0), (2, (28 + ps.length) >>> 8 % 256), (3, (28 + ps.length) % 256),
           (8, 64), (4, 0), (5, 0)]))
         ++ [((6 : Nat), (0 : Nat)), ((7 : Nat), (0 : Nat))] from by simp,
    icOut, icOfWrites_append,
    show icOfWrites [((6 : Nat), (0 : Nat)), ((7 : Nat), (0 : Nat))]
      = [(0, false), (0, true)] from rfl,
    icFeed_canon _ (0, false) (0, true) (by decide) (by decide)]
  rw [ipv4_accum_sum cfg q0 q1 q2 q3 m1 m2 n1 n2 _ ps,
    split16 (65535 - canonRep (contribSum (icOfWrites
        ([(4, m1), (5, m2), (6, n1), (7, n2)] ++ copyOp 8 ps.length ps))))
      (by have h := canonRep_le (contribSum (icOfWrites
        ([(4, m1), (5, m2), (6, n1), (7, n2)] ++ copyOp 8 ps.length ps))); omega),
    split16 (28 + ps.length) (by omega)]
  rw [rfc1071, ipv4_zeroed_words cfg q0 q1 q2 q3 ps,
    rfcSum_canon _ (by
      intro w hmem
      simp only [List.mem_cons, List.not_mem_nil, or_false] at hmem
      rcases hmem with rfl | rfl | rfl | rfl | rfl | rfl | rfl | rfl | rfl | rfl
      · omega
      · omega
      · omega
      · omega
      · omega
      · omega
      · omega
      · omega
      · omega
      · omega),
    split16 (28 + ps.length) (by omega)]
  congr 1
  have hle : canonRep (contribSum (icOfWrites
        ([(4, m1), (5, m2), (6, n1), (7, n2)] ++ copyOp 8 ps.length ps))) ≤ contribSum (icOfWrites
        ([(4, m1), (5, m2), (6, n1), (7, n2)] ++ copyOp 8 ps.length ps)) := canonRep_le_self _
  have hclt : canonRep (contribSum (icOfWrites
        ([(4, m1), (5, m2), (6, n1), (7, n2)] ++ copyOp 8 ps.length ps))) ≤ 65535 := canonRep_le _
  have hcm : canonRep (contribSum (icOfWrites
        ([(4, m1), (5, m2), (6, n1), (7, n2)] ++ copyOp 8 ps.length ps))) % 65535 = contribSum (icOfWrites
        ([(4, m1), (5, m2), (6, n1), (7, n2)] ++ copyOp 8 ps.length ps)) % 65535 := canonRep_modeq _
  have hSI := icmp_block_sum m1 m2 n1 n2 ps
  apply canonRep_congr
  · show _ % 65535 = _ % 65535
    simp only [List.sum_cons, List.sum_nil]
    omega
  · omega
  · simp only [List.sum_cons, List.sum_nil]
    omega



/-- Rendering a payload position of the reply: the write blocks before and
after the payload copy stay below address 42, so position `42 + i` shows
payload byte `i`. -/
lemma render_mid_getD (A B : List (Nat × Nat)) (ps : List Nat) (i : Nat)
    (hA : A.all (fun p => decide (p.1 < 42)) = true)
    (hB : B.all (fun p => decide (p.1 < 42)) = true)
    (hi : i < ps.length) (hps : ∀ x ∈ ps, x < 256) :
    renderByte (A ++ (copyOp 42 ps.length ps ++ B)) 0 (42 + i) = ps.getD i 0 := by
  rw [renderByte_append, renderByte_append,
    renderByte_bounded A 0 (42 + i) 42 (by omega) hA]
  have hmid : renderByte (copyOp 42 ps.length ps) 0 (42 + i) = ps.getD i 0 := by
    simp only [renderByte]
    rw [foldl_copyOp_render, if_pos ⟨by omega, by omega⟩,
      show 42 + i - 42 = i from by omega, rdByte]
    exact Nat.mod_eq_of_lt (getD_lt_256 ps hps i)
  rw [hmid]
  exact renderByte_bounded B _ (42 + i) 42 (by omega) hB

set_option maxHeartbeats 4000000 in
/-- C1 (amended): for every received frame that is an ICMP echo request
with a nonempty payload addressed to the engine's configured IPv4 address
(EtherType 0x0800, VER_IHL 0x45, protocol 1, destination IP the configured
address, ICMP type 8 code 0), the engine emits a reply: an Ethernet frame back to the requester from the
engine's own MAC, an IPv4 header to the requester's IP from the engine's
address, ICMP type 0 code 0, the request's identifier, sequence and
payload bytes unchanged, and both the IPv4 header checksum and the ICMP
checksum recomputed per RFC 1071 over the corresponding reply bytes with a
zeroed checksum field. -/
theorem icmp_echo_reply (cfg : StackConfig)
    (d0 d1 d2 d3 d4 d5 s0 s1 s2 s3 s4 s5 dscp i1 i2 f1 f2 tt c1 c2
      q0 q1 q2 q3 k1 k2 m1 m2 n1 n2 : Nat) (ps : List Nat)
    (hb : ∀ x ∈ [s0, s1, s2, s3, s4, s5, q0, q1, q2, q3, m1, m2, n1, n2], x < 256)
    (hps : ∀ x ∈ ps, x < 256)
    (hpos : 0 < ps.length) (hlen : ps.length + 42 < 2048) :
    (ethLayer cfg
        ([d0, d1, d2, d3, d4, d5] ++ [s0, s1, s2, s3, s4, s5] ++ [0x08, 0x00]
          ++ [0x45, dscp] ++ valBytes (28 + ps.length) 2 ++ [i1, i2, f1, f2, tt]
          ++ [0x01] ++ [c1, c2] ++ [q0, q1, q2, q3] ++ valBytes cfg.ip4Addr 4
          ++ [0x08, 0x00] ++ [k1, k2] ++ [m1, m2] ++ [n1, n2] ++ ps)).send = true
    ∧ (ethLayer cfg
        ([d0, d1, d2, d3, d4, d5] ++ [s0, s1, s2, s3, s4, s5] ++ [0x08, 0x00]
          ++ [0x45, dscp] ++ valBytes (28 + ps.length) 2 ++ [i1, i2, f1, f2, tt]
          ++ [0x01] ++ [c1, c2] ++ [q0, q1, q2, q3] ++ valBytes cfg.ip4Addr 4
          ++ [0x08, 0x00] ++ [k1, k2] ++ [m1, m2] ++ [n1, n2] ++ ps)).txLen = 42 + ps.length
    ∧ replyBytes (ethLayer cfg
        ([d0, d1, d2, d3, d4, d5] ++ [s0, s1, s2, s3, s4, s5] ++ [0x08, 0x00]
          ++ [0x45, dscp] ++ valBytes (28 + ps.length) 2 ++ [i1, i2, f1, f2, tt]
          ++ [0x01] ++ [c1, c2] ++ [q0, q1, q2, q3] ++ valBytes cfg.ip4Addr 4
          ++ [0x08, 0x00] ++ [k1, k2] ++ [m1, m2] ++ [n1, n2] ++ ps))
      = [s0, s1, s2, s3, s4, s5] ++ valBytes cfg.macAddr 6 ++ [0x08, 0x00]
        ++ [0x45, 0] ++ valBytes (28 + ps.length) 2 ++ [0, 0, 0, 0, 64, 1]
        ++ valBytes (rfc1071 ([0x45, 0] ++ valBytes (28 + ps.length) 2
            ++ [0, 0, 0, 0, 64, 1, 0, 0] ++ valBytes cfg.ip4Addr 4
            ++ [q0, q1, q2, q3])) 2
        ++ valBytes cfg.ip4Addr 4 ++ [q0, q1, q2, q3]
        ++ [0, 0] ++ valBytes (rfc1071 ([0, 0, 0, 0, m1, m2, n1, n2] ++ ps)) 2
        ++ [m1, m2, n1, n2] ++ ps := by
  have e : ∀ x ∈ [s0, s1, s2, s3, s4, s5, q0, q1, q2, q3, m1, m2, n1, n2],
      x % 256 = x := fun x hx => Nat.mod_eq_of_lt (hb x hx)
  have es0 := e s0 (by simp); have es1 := e s1 (by simp); have es2 := e s2 (by simp)
  have es3 := e s3 (by simp); have es4 := e s4 (by simp); have es5 := e s5 (by simp)
  have eq0 := e q0 (by simp); have eq1 := e q1 (by simp); have eq2 := e q2 (by simp)
  have eq3 := e q3 (by simp)
  have em1 := e m1 (by simp); have em2 := e m2 (by simp)
  have en1 := e n1 (by simp); have en2 := e n2 (by simp)
  have hC := ethLayer_echo cfg d0 d1 d2 d3 d4 d5 s0 s1 s2 s3 s4 s5 dscp
    i1 i2 f1 f2 tt c1 c2 q0 q1 q2 q3 k1 k2 m1 m2 n1 n2 ps
    es0 es1 es2 es3 es4 es5 eq0 eq1 eq2 eq3 em1 em2 en1 en2 hpos hlen
  rw [hC] at *
  refine ⟨rfl, rfl, ?_⟩
  simp only [replyBytes]
  rw [ipv4_echo_checksum cfg q0 q1 q2 q3 m1 m2 n1 n2 ps hlen,
    icmp_echo_checksum m1 m2 n1 n2 ps]
  rw [List.range_add, List.map_append, List.map_map]
  congr 1
  · rw [range_fortytwo]
    simp only [List.map_cons, List.map_nil]
    simp [renderByte, List.foldl_append, foldl_copyOp_render,
      valBytes, valByte, range_two, range_four, range_six, mod256_mod256]
  · conv_rhs => rw [show ps = (List.range ps.length).map (fun j => ps.getD j 0)
      from (map_getD_range ps).symm]
    apply List.map_congr_left
    intro i hi
    simp only [List.mem_range] at hi
    simp only [Function.comp]
    rw [show ((0, s0) :: (1, s1) :: (2, s2) :: (3, s3) :: (4, s4) :: (5, s5) ::
          (12, 8) :: (13, 0) ::
          (14, 69) :: (23, 1) :: (30, q0) :: (31, q1) :: (32, q2) :: (33, q3) ::
          (26, cfg.ip4Addr >>> 24 % 256) :: (27, cfg.ip4Addr >>> 16 % 256) ::
          (28, cfg.ip4Addr >>> 8 % 256) :: (29, cfg.ip4Addr % 256) ::
          (38, m1) :: (39, m2) :: (40, n1) :: (41, n2) ::
          (copyOp 42 ps.length ps ++
            [(34, 0), (35, 0),
             (36, rfc1071 ([0, 0, 0, 0, m1, m2, n1, n2] ++ ps) >>> 8 % 256),
             (37, rfc1071 ([0, 0, 0, 0, m1, m2, n1, n2] ++ ps) % 256),
             (15, 0), (16, (28 + ps.length) >>> 8 % 256),
             (17, (28 + ps.length) % 256),
             (22, 64), (18, 0), (19, 0), (20, 0), (21, 0),
             (24, rfc1071 ([0x45, 0] ++ valBytes (28 + ps.length) 2
                ++ [0, 0, 0, 0, 64, 1, 0, 0] ++ valBytes cfg.ip4Addr 4
                ++ [q0, q1, q2, q3]) >>> 8 % 256),
             (25, rfc1071 ([0x45, 0] ++ valBytes (28 + ps.length) 2
                ++ [0, 0, 0, 0, 64, 1, 0, 0] ++ valBytes cfg.ip4Addr 4
                ++ [q0, q1, q2, q3]) % 256),
             (6, cfg.macAddr >>> 40 % 256), (7, cfg.macAddr >>> 32 % 256),
             (8, cfg.macAddr >>> 24 % 256), (9, cfg.macAddr >>> 16 % 256),
             (10, cfg.macAddr >>> 8 % 256), (11, cfg.macAddr % 256)])
          : List (Nat × Nat))
        = [(0, s0), (1, s1), (2, s2), (3, s3), (4, s4), (5, s5),
           (12, 8), (13, 0),
           (14, 69), (23, 1), (30, q0), (31, q1), (32, q2), (33, q3),
           (26, cfg.ip4Addr >>> 24 % 256), (27, cfg.ip4Addr >>> 16 % 256),
           (28, cfg.ip4Addr >>> 8 % 256), (29, cfg.ip4Addr % 256),
           (38, m1), (39, m2), (40, n1), (41, n2)]
          ++ (copyOp 42 ps.length ps ++
            [(34, 0), (35, 0),
             (36, rfc1071 ([0, 0, 0, 0, m1, m2, n1, n2] ++ ps) >>> 8 % 256),
             (37, rfc1071 ([0, 0, 0, 0, m1, m2, n1, n2] ++ ps) % 256),
             (15, 0), (16, (28 + ps.length) >>> 8 % 256),
             (17, (28 + ps.length) % 256),
             (22, 64), (18, 0), (19, 0), (20, 0), (21, 0),
             (24, rfc1071 ([0x45, 0] ++ valBytes (28 + ps.length) 2
                ++ [0, 0, 0, 0, 64, 1, 0, 0] ++ valBytes cfg.ip4Addr 4
                ++ [q0, q1, q2, q3]) >>> 8 % 256),
             (25, rfc1071 ([0x45, 0] ++ valBytes (28 + ps.length) 2
                ++ [0, 0, 0, 0, 64, 1, 0, 0] ++ valBytes cfg.ip4Addr 4
                ++ [q0, q1, q2, q3]) % 256),
             (6, cfg.macAddr >>> 40 % 256), (7, cfg.macAddr >>> 32 % 256),
             (8, cfg.macAddr >>> 24 % 256), (9, cfg.macAddr >>> 16 % 256),
             (10, cfg.macAddr >>> 8 % 256), (11, cfg.macAddr % 256)])
        from by simp]
    apply render_mid_getD
    · rfl
    · rfl
    · exact hi
    · exact hps


/-- Witness for icmp_echo_reply at the test vector from the repository's
test_rx_icmp simulation (identifier 0x1234, sequence 0xABCD, 16-byte
payload 0x00..0x0F). -/
theorem icmp_echo_reply_witness :
    (ethLayer ⟨0x0123456789AB, 0x0A000005, 16, 1735⟩
        ([0x01, 0x23, 0x45, 0x67, 0x89, 0xAB] ++ [0, 1, 2, 3, 4, 5] ++ [0x08, 0x00]
          ++ [0x45, 0] ++ valBytes 44 2 ++ [0, 0, 0, 0, 0x40]
          ++ [0x01] ++ [0x01, 0x0C] ++ [10, 0, 0, 1] ++ valBytes 0x0A000005 4
          ++ [0x08, 0x00] ++ [0x02, 0x3E] ++ [0x12, 0x34] ++ [0xAB, 0xCD]
          ++ [0, 1, 2, 3, 4, 5, 6, 7, 8, 9, 10, 11, 12, 13, 14, 15])).send
      = true :=
  (icmp_echo_reply ⟨0x0123456789AB, 0x0A000005, 16, 1735⟩
      0x01 0x23 0x45 0x67 0x89 0xAB 0 1 2 3 4 5 0 0 0 0 0 0x40 0x01 0x0C
      10 0 0 1 0x02 0x3E 0x12 0x34 0xAB 0xCD
      [0, 1, 2, 3, 4, 5, 6, 7, 8, 9, 10, 11, 12, 13, 14, 15]
      (by decide) (by decide) (by decide) (by decide)).1


/-- C1 counterexample: a zero-payload echo request (IPv4 total length 28,
a well-formed request otherwise identical to the replied-to ones) gets no
reply: the payload copy state's exit comparison `ctr == payload_n - 1`
can never be met at `payload_n = 0`, so the ICMP layer never completes and
no send is ever requested, refuting the original claim's universal "the
engine emits a reply". -/
theorem icmp_empty_payload_no_reply :
    (ethLayer ⟨0x0123456789AB, 0x0A000005, 16, 1735⟩
        [0x01, 0x23, 0x45, 0x67, 0x89, 0xAB, 0x00, 0x01, 0x02, 0x03, 0x04, 0x05,
         0x08, 0x00,
         0x45, 0x00, 0, 28, 0x00, 0x00, 0x00, 0x00, 0x40, 0x01, 0x01, 0x0C,
         10, 0, 0, 1, 10, 0, 0, 5,
         0x08, 0x00, 0x02, 0x3E, 0x12, 0x34, 0xAB, 0xCD]).send = false := by
  decide

/-- C4 counterexample: with the configured payload length zero, a matching
datagram (destination port the configured one, UDP length field 0 + 8 = 8)
is never delivered: the `extract_to_mem` exit comparison `ctr == n - 1`
can never be met at `n = Const(0)`, so the UDP layer never reaches the
cache-update and `user_rx` states, refuting the original claim's "pulses
the packet received signal" and "overwrites the Endpoint Cache" for that
configuration. -/
theorem udp_zero_length_no_receive :
    ((ethLayer ⟨0x0123456789AB, 0x0A000005, 0, 1735⟩
        [0x01, 0x23, 0x45, 0x67, 0x89, 0xAB, 0, 1, 2, 3, 4, 5,
         0x08, 0x00,
         0x45, 0, 0, 28, 0, 0, 0, 0, 64, 0x11, 0, 0,
         10, 0, 0, 1, 10, 0, 0, 5,
         0x27, 0x10, 0x06, 0xC7, 0, 8, 0, 0]).userRx = false)
    ∧ ((ethLayer ⟨0x0123456789AB, 0x0A000005, 0, 1735⟩
        [0x01, 0x23, 0x45, 0x67, 0x89, 0xAB, 0, 1, 2, 3, 4, 5,
         0x08, 0x00,
         0x45, 0, 0, 28, 0, 0, 0, 0, 64, 0x11, 0, 0,
         10, 0, 0, 1, 10, 0, 0, 5,
         0x27, 0x10, 0x06, 0xC7, 0, 8, 0, 0]).cache = none) := by
  decide


end Daqnet
